import Mathlib

/-!
Verification of the Briscola game engine (card catalog, round evaluation,
trump-swap rule, and the three mode engines: 1v1, 3-for-all, 2v2 teams).
The definitions below are a shallow embedding of the TypeScript sources
(`Card.tsx`, `BaseGameLogic.ts`, `OneVOneGameLogic`, `ThreeForAllGameLogic.ts`,
`TwoVTwoGameLogic.ts`); randomness (shuffling, card-animation transforms) is
externalized as explicit parameters.
-/

namespace Briscola

/-- Suits of the 40-card deck (enum `Suit` in `Card.tsx`). -/
inductive Suit
  | club
  | coin
  | cup
  | sword
deriving DecidableEq, Repr

/-- Card ranks (enum `CardValue` in `Card.tsx`); `one` is the Ace. -/
inductive CardValue
  | one
  | two
  | three
  | four
  | five
  | six
  | seven
  | jack
  | knight
  | king
deriving DecidableEq, Repr

/-- String value of each `Suit` enum member. -/
def suitStr : Suit → String
  | .club => "club"
  | .coin => "coin"
  | .cup => "cup"
  | .sword => "sword"

/-- String value of each `CardValue` enum member. -/
def valueStr : CardValue → String
  | .one => "1"
  | .two => "2"
  | .three => "3"
  | .four => "4"
  | .five => "5"
  | .six => "6"
  | .seven => "7"
  | .jack => "jack"
  | .knight => "knight"
  | .king => "king"

/-- `CARD_SCORES` from `Card.tsx`. -/
def CARD_SCORES : CardValue → Nat
  | .one => 11
  | .two => 0
  | .three => 10
  | .four => 0
  | .five => 0
  | .six => 0
  | .seven => 0
  | .jack => 2
  | .knight => 3
  | .king => 4

/-- `CARD_NAMES` from `Card.tsx`. -/
def CARD_NAMES : CardValue → String
  | .one => "Ace"
  | .two => "Two"
  | .three => "Three"
  | .four => "Four"
  | .five => "Five"
  | .six => "Six"
  | .seven => "Seven"
  | .jack => "Jack"
  | .knight => "Knight"
  | .king => "King"

/-- The `Card` interface from `Card.tsx`. -/
structure Card where
  suit : Suit
  value : CardValue
  score : Nat
  name : String
  imagePath : String
  id : String
deriving DecidableEq, Repr

/-- The card object built for one suit/value pair inside `createDeck`. -/
def mkCard (s : Suit) (v : CardValue) : Card :=
  { suit := s
    value := v
    score := CARD_SCORES v
    name := CARD_NAMES v ++ " of " ++ suitStr s ++ "s"
    imagePath := "/assets/cards/" ++ suitStr s ++ "/" ++ suitStr s ++ "_" ++ valueStr v ++ ".png"
    id := suitStr s ++ "_" ++ valueStr v }

/-- `Object.values(Suit)` in declaration order. -/
def allSuits : List Suit := [.club, .coin, .cup, .sword]

/-- `Object.values(CardValue)` in declaration order. -/
def allValues : List CardValue :=
  [.one, .two, .three, .four, .five, .six, .seven, .jack, .knight, .king]

/-- `createDeck` from `Card.tsx`: 4 suits x 10 values in declaration order. -/
def createDeck : List Card :=
  allSuits.flatMap fun s => allValues.map fun v => mkCard s v

/-- `BRISCOLA_VALUE_ORDER` from `Card.tsx` (lower index = stronger card). -/
def BRISCOLA_VALUE_ORDER : List CardValue :=
  [.one, .three, .king, .knight, .jack, .seven, .six, .five, .four, .two]

/-- `BRISCOLA_VALUE_ORDER.indexOf(v)`; every rank occurs, so it is 0..9. -/
def rankIndex (v : CardValue) : Nat :=
  BRISCOLA_VALUE_ORDER.findIdx (fun u => decide (u = v))

/-- The `PlayedCardData` interface from `BaseGameLogic.ts`. -/
structure PlayedCardData where
  card : Card
  playerId : String
  transform : String
deriving DecidableEq, Repr

/-- One step of the `reduce` used in `evaluateRound`: keep `current` when it is
strictly stronger (smaller rank index) than `highest`. -/
def strongerOf (highest current : PlayedCardData) : PlayedCardData :=
  if rankIndex current.card.value < rankIndex highest.card.value then current else highest

/-- `evaluateRound` from `BaseGameLogic.ts`: trump cards first, then cards of
the leading suit, otherwise the first card played wins.  JavaScript's
`reduce(f, arr[0])` folds `f` over the whole array starting from `arr[0]`. -/
def evaluateRound (playedCards : List PlayedCardData) (trumpSuit : Suit) : String :=
  match playedCards with
  | [] => ""
  | first :: _ =>
    let leadingSuit := first.card.suit
    let trumpCards := playedCards.filter (fun pc => decide (pc.card.suit = trumpSuit))
    match trumpCards with
    | tc :: tcs => ((tc :: tcs).foldl strongerOf tc).playerId
    | [] =>
      let leadingSuitCards := playedCards.filter (fun pc => decide (pc.card.suit = leadingSuit))
      match leadingSuitCards with
      | lc :: lcs => ((lc :: lcs).foldl strongerOf lc).playerId
      | [] => first.playerId

/-- The fold used by `evaluateRound` always returns its seed or a list element. -/
theorem foldl_strongerOf_mem (l : List PlayedCardData) (a : PlayedCardData) :
    l.foldl strongerOf a = a ∨ l.foldl strongerOf a ∈ l := by
  induction l generalizing a with
  | nil => exact Or.inl rfl
  | cons x xs ih =>
    rcases ih (strongerOf a x) with h | h
    · rw [List.foldl_cons, h]
      unfold strongerOf
      split
      · exact Or.inr (List.mem_cons_self _ _)
      · exact Or.inl rfl
    · exact Or.inr (List.mem_cons_of_mem _ h)

/-- The fold used by `evaluateRound` returns an entry whose rank index is at
most that of the seed and of every list element. -/
theorem foldl_strongerOf_min (l : List PlayedCardData) (a : PlayedCardData) :
    rankIndex (l.foldl strongerOf a).card.value ≤ rankIndex a.card.value ∧
      ∀ x ∈ l, rankIndex (l.foldl strongerOf a).card.value ≤ rankIndex x.card.value := by
  induction l generalizing a with
  | nil => exact ⟨Nat.le_refl _, by simp⟩
  | cons x xs ih =>
    rcases ih (strongerOf a x) with ⟨h1, h2⟩
    have hseed : rankIndex (strongerOf a x).card.value ≤ rankIndex a.card.value ∧
        rankIndex (strongerOf a x).card.value ≤ rankIndex x.card.value := by
      unfold strongerOf
      split
      · omega
      · omega
    refine ⟨le_trans h1 hseed.1, ?_⟩
    intro y hy
    rcases List.mem_cons.mp hy with rfl | hy
    · exact le_trans h1 hseed.2
    · exact h2 y hy

/-- Unfolding of `evaluateRound` when some trump-suit card was played. -/
theorem evaluateRound_trump_case (first : PlayedCardData) (rest : List PlayedCardData)
    (trumpSuit : Suit) (tc : PlayedCardData) (tcs : List PlayedCardData)
    (hfilter : (first :: rest).filter (fun pc => decide (pc.card.suit = trumpSuit)) = tc :: tcs) :
    evaluateRound (first :: rest) trumpSuit = ((tc :: tcs).foldl strongerOf tc).playerId := by
  unfold evaluateRound
  simp only [hfilter]

/-- Unfolding of `evaluateRound` when no trump was played but a card of the
leading suit was. -/
theorem evaluateRound_leading_case (first : PlayedCardData) (rest : List PlayedCardData)
    (trumpSuit : Suit) (lc : PlayedCardData) (lcs : List PlayedCardData)
    (htr : (first :: rest).filter (fun pc => decide (pc.card.suit = trumpSuit)) = [])
    (hld : (first :: rest).filter (fun pc => decide (pc.card.suit = first.card.suit)) = lc :: lcs) :
    evaluateRound (first :: rest) trumpSuit = ((lc :: lcs).foldl strongerOf lc).playerId := by
  unfold evaluateRound
  simp only [htr, hld]

/-- C1: for a non-empty play area, `evaluateRound` returns the player of a
strongest-ranked trump card when a trump was played (lower `rankIndex` =
stronger, so in particular any trump beats every non-trump); otherwise the
player of a strongest-ranked card of the leading suit; otherwise (a vacuous
defensive fallback, since the first card always matches the leading suit) the
first entry's player.  Determinism and absence of side effects hold because
`evaluateRound` is a pure function of the play area and trump suit. -/
theorem evaluateRound_spec (playedCards : List PlayedCardData) (trumpSuit : Suit)
    (first : PlayedCardData) (hfirst : playedCards.head? = some first) :
    ((∃ pc ∈ playedCards, pc.card.suit = trumpSuit) →
      ∃ pc ∈ playedCards, pc.card.suit = trumpSuit ∧
        pc.playerId = evaluateRound playedCards trumpSuit ∧
        ∀ qc ∈ playedCards, qc.card.suit = trumpSuit →
          rankIndex pc.card.value ≤ rankIndex qc.card.value)
    ∧ ((∀ pc ∈ playedCards, pc.card.suit ≠ trumpSuit) →
      ∃ pc ∈ playedCards, pc.card.suit = first.card.suit ∧
        pc.playerId = evaluateRound playedCards trumpSuit ∧
        ∀ qc ∈ playedCards, qc.card.suit = first.card.suit →
          rankIndex pc.card.value ≤ rankIndex qc.card.value)
    ∧ ((∀ pc ∈ playedCards, pc.card.suit ≠ trumpSuit) →
        (∀ pc ∈ playedCards, pc.card.suit ≠ first.card.suit) →
        evaluateRound playedCards trumpSuit = first.playerId) := by
  match playedCards, hfirst with
  | first :: rest, rfl =>
    refine ⟨?_, ?_, ?_⟩
    · rintro ⟨pc, hmem, hsuit⟩
      have hpc : pc ∈ (first :: rest).filter (fun pc => decide (pc.card.suit = trumpSuit)) :=
        List.mem_filter.mpr ⟨hmem, by simpa using hsuit⟩
      match hfilter : (first :: rest).filter (fun pc => decide (pc.card.suit = trumpSuit)) with
      | [] => rw [hfilter] at hpc; cases hpc
      | tc :: tcs =>
        set w := (tc :: tcs).foldl strongerOf tc with hw
        have hwmem : w ∈ tc :: tcs := by
          rcases foldl_strongerOf_mem (tc :: tcs) tc with h | h
          · rw [← hw] at h; rw [h]; exact List.mem_cons_self _ _
          · exact h
        have hwfilter : w ∈ (first :: rest).filter (fun pc => decide (pc.card.suit = trumpSuit)) := by
          rw [hfilter]; exact hwmem
        have hwmem' := (List.mem_filter.mp hwfilter).1
        have hwsuit : w.card.suit = trumpSuit := by
          have := (List.mem_filter.mp hwfilter).2
          simpa using this
        refine ⟨w, hwmem', hwsuit, ?_, ?_⟩
        · rw [evaluateRound_trump_case first rest trumpSuit tc tcs hfilter]
        · intro qc hqc hqcsuit
          have hqcf : qc ∈ (first :: rest).filter (fun pc => decide (pc.card.suit = trumpSuit)) :=
            List.mem_filter.mpr ⟨hqc, by simpa using hqcsuit⟩
          rw [hfilter] at hqcf
          exact (foldl_strongerOf_min (tc :: tcs) tc).2 qc hqcf
    · intro hnotr
      have htr : (first :: rest).filter (fun pc => decide (pc.card.suit = trumpSuit)) = [] := by
        rw [List.filter_eq_nil_iff]
        intro pc hpc
        simpa using hnotr pc hpc
      have hfirstmem : first ∈ (first :: rest).filter
          (fun pc => decide (pc.card.suit = first.card.suit)) :=
        List.mem_filter.mpr ⟨List.mem_cons_self _ _, by simp⟩
      match hld : (first :: rest).filter (fun pc => decide (pc.card.suit = first.card.suit)) with
      | [] => rw [hld] at hfirstmem; cases hfirstmem
      | lc :: lcs =>
        set w := (lc :: lcs).foldl strongerOf lc with hw
        have hwmem : w ∈ lc :: lcs := by
          rcases foldl_strongerOf_mem (lc :: lcs) lc with h | h
          · rw [← hw] at h; rw [h]; exact List.mem_cons_self _ _
          · exact h
        have hwfilter : w ∈ (first :: rest).filter
            (fun pc => decide (pc.card.suit = first.card.suit)) := by
          rw [hld]; exact hwmem
        have hwmem' := (List.mem_filter.mp hwfilter).1
        have hwsuit : w.card.suit = first.card.suit := by
          have := (List.mem_filter.mp hwfilter).2
          simpa using this
        refine ⟨w, hwmem', hwsuit, ?_, ?_⟩
        · rw [evaluateRound_leading_case first rest trumpSuit lc lcs htr hld]
        · intro qc hqc hqcsuit
          have hqcf : qc ∈ (first :: rest).filter
              (fun pc => decide (pc.card.suit = first.card.suit)) :=
            List.mem_filter.mpr ⟨hqc, by simpa using hqcsuit⟩
          rw [hld] at hqcf
          exact (foldl_strongerOf_min (lc :: lcs) lc).2 qc hqcf
    · intro _ hnold
      exact absurd rfl (hnold first (List.mem_cons_self _ _))

/-- C1 witness: the scenario from the spec, Ace of coins led against Three of
coins with sword as trump: the Ace's player wins. -/
theorem evaluateRound_spec_witness :
    ([⟨mkCard .coin .one, "P1", ""⟩, ⟨mkCard .coin .three, "P2", ""⟩] :
        List PlayedCardData).head? = some ⟨mkCard .coin .one, "P1", ""⟩ ∧
    evaluateRound [⟨mkCard .coin .one, "P1", ""⟩, ⟨mkCard .coin .three, "P2", ""⟩] .sword = "P1" ∧
    ∃ pc ∈ ([⟨mkCard .coin .one, "P1", ""⟩, ⟨mkCard .coin .three, "P2", ""⟩] :
        List PlayedCardData), pc.card.suit = (mkCard .coin .one).suit ∧
      pc.playerId = evaluateRound
        [⟨mkCard .coin .one, "P1", ""⟩, ⟨mkCard .coin .three, "P2", ""⟩] .sword ∧
      ∀ qc ∈ ([⟨mkCard .coin .one, "P1", ""⟩, ⟨mkCard .coin .three, "P2", ""⟩] :
          List PlayedCardData), qc.card.suit = (mkCard .coin .one).suit →
        rankIndex pc.card.value ≤ rankIndex qc.card.value := by
  refine ⟨rfl, by decide, ?_⟩
  exact (evaluateRound_spec
    [⟨mkCard .coin .one, "P1", ""⟩, ⟨mkCard .coin .three, "P2", ""⟩] .sword
    ⟨mkCard .coin .one, "P1", ""⟩ rfl).2.1 (by decide)

/-! ## Game state

JavaScript objects keyed by player id are modelled as insertion-ordered
association lists; `{...obj, [k]: v}` replaces the value at the first
occurrence of `k` (or appends a new entry), and `Object.keys`/`Object.values`
iterate in insertion order. -/

/-- Lookup in an association list (`obj[k]`, `none` for `undefined`). -/
def lookupKey : List (String × α) → String → Option α
  | [], _ => none
  | (k, v) :: rest, key => if k = key then some v else lookupKey rest key

/-- Lookup with a default value. -/
def lookupD (m : List (String × α)) (key : String) (d : α) : α :=
  (lookupKey m key).getD d

/-- `{...obj, [key]: v}`: replace at the first occurrence or append. -/
def setKey : List (String × α) → String → α → List (String × α)
  | [], key, v => [(key, v)]
  | (k, w) :: rest, key, v =>
    if k = key then (k, v) :: rest else (k, w) :: setKey rest key v

/-- Total number of cards in all hands (or stacks) of an association list. -/
def sumSizes (m : List (String × List Card)) : Nat :=
  (m.map fun kv => kv.2.length).sum

theorem lookupKey_setKey (m : List (String × α)) (k k' : String) (v : α) :
    lookupKey (setKey m k v) k' = if k = k' then some v else lookupKey m k' := by
  induction m with
  | nil =>
    by_cases h : k = k' <;> simp [setKey, lookupKey, h]
  | cons kv rest ih =>
    obtain ⟨k0, w⟩ := kv
    by_cases h0 : k0 = k
    · subst h0
      by_cases h : k0 = k' <;> simp [setKey, lookupKey, h]
    · by_cases h : k0 = k'
      · subst h
        have hk : ¬ k = k0 := fun hk => h0 hk.symm
        simp [setKey, lookupKey, h0, hk]
      · simp [setKey, lookupKey, h0, h, ih]

theorem sumSizes_setKey (m : List (String × List Card)) (k : String) (v : List Card) :
    sumSizes (setKey m k v) + (lookupD m k []).length = sumSizes m + v.length := by
  induction m with
  | nil => simp [setKey, sumSizes, lookupD, lookupKey]
  | cons kv rest ih =>
    obtain ⟨k0, w⟩ := kv
    by_cases h0 : k0 = k
    · simp [setKey, sumSizes, lookupD, lookupKey, h0]
      omega
    · simp only [setKey, if_neg h0, sumSizes, List.map_cons, List.sum_cons, lookupD, lookupKey]
      have := ih
      simp only [sumSizes, lookupD] at this
      omega

/-- A participant: the id from the external player state, plus the externally
chosen team bit read by `getTeamsFromPlayers` (2v2 lobby; `none` when unset). -/
structure Player where
  id : String
  team : Option Nat := none
deriving DecidableEq, Repr

/-- Game phases (`GamePhase` in `BaseGameLogic.ts`, plus the `revealing_hands`
pre-phase that `TwoVTwoGameLogic.initializeGame` stores). -/
inductive GamePhase
  | waiting
  | playing
  | round_complete
  | game_over
  | revealing_hands
deriving DecidableEq, Repr

/-- One entry of the per-round history log kept by the 1v1 and 2v2 engines. -/
structure RoundRecord where
  roundNumber : Nat
  playedCards : List PlayedCardData
  winnerId : String
deriving DecidableEq, Repr

/-- The `GameState` snapshot, with the extra fields used by the 1v1 and 2v2
engines (`trumpSuit`, `lastSwapPlayerId`, `roundHistory`, `teams`,
`teamScores`, `winnerTeam`, `turnOrder`). -/
structure GameState where
  phase : GamePhase
  deck : List Card
  trumpCard : Option Card
  trumpSuit : Option Suit := none
  playerHands : List (String × List Card)
  playerStacks : List (String × List Card)
  playedCards : List PlayedCardData
  currentTurnPlayerIndex : Nat
  roundNumber : Nat
  roundWinnerId : Option String
  finalScores : List (String × Nat) := []
  gameWinnerId : Option String := none
  lastSwapPlayerId : Option String := none
  roundHistory : List RoundRecord := []
  teams : List (String × Nat) := []
  teamScores : List (String × Nat) := []
  winnerTeam : Option Nat := none
  turnOrder : List String := []
deriving DecidableEq, Repr

/-- The conserved quantity of claim C2: cards in the deck, in all hands, in
all stacks, in the play area, plus the face-up trump card if present. -/
def totalCards (s : GameState) : Nat :=
  s.deck.length + sumSizes s.playerHands + sumSizes s.playerStacks +
    s.playedCards.length + (if s.trumpCard.isSome then 1 else 0)

/-! ## Trump swap (`BaseGameLogic.swapWithTrump`) -/

/-- The major trump ranks from `swapWithTrump` (King, Knight, Jack, Ace, Three). -/
def MAJOR : List CardValue := [.king, .knight, .jack, .one, .three]

/-- `swapWithTrump` from `BaseGameLogic.ts`.  Returns `none` exactly where the
source returns `null` without touching `this.state`; `some` carries the new
state of a successful swap.  `findIndex` returning `-1` is modelled by
`List.findIdx` returning the hand's length. -/
def swapWithTrump (s : GameState) (playerId cardId : String) : Option GameState :=
  if s.phase ≠ .playing ∧ s.phase ≠ .round_complete then none
  else match s.trumpCard with
  | none => none
  | some trumpCard =>
    if s.deck.length = 0 then none
    else match lookupKey s.playerHands playerId with
    | none => none
    | some playerHand =>
      let cardIndex := playerHand.findIdx (fun c => decide (c.id = cardId))
      if h : cardIndex < playerHand.length then
        let card := playerHand.get ⟨cardIndex, h⟩
        if card.suit ≠ trumpCard.suit then none
        else
          -- `isMajorTrump` in the source is `MAJOR.includes(trumpCard.value)`
          if card.value = .seven ∧ ¬ (trumpCard.value ∈ MAJOR) then none
          else if card.value = .two ∧ trumpCard.value ∈ MAJOR then none
          else if card.value ≠ .seven ∧ card.value ≠ .two then none
          else some { s with
            trumpCard := some card
            playerHands := setKey s.playerHands playerId (playerHand.set cardIndex trumpCard) }
      else none

/-- If `find?` succeeds then `findIdx` is a valid index. -/
theorem findIdx_lt_length_of_find?_eq_some {l : List α} {p : α → Bool} {c : α}
    (h : l.find? p = some c) : l.findIdx p < l.length := by
  induction l with
  | nil => simp [List.find?] at h
  | cons a rest ih =>
    by_cases hpa : p a
    · simp [List.findIdx_cons, hpa]
    · rw [List.find?_cons_of_neg _ (by simpa using hpa)] at h
      simp only [List.findIdx_cons, hpa, cond_false, List.length_cons]
      exact Nat.succ_lt_succ (ih h)

/-- `find?` returns exactly the element sitting at index `findIdx`. -/
theorem find?_eq_get_findIdx {l : List α} {p : α → Bool}
    (h : l.findIdx p < l.length) : l.find? p = some (l.get ⟨l.findIdx p, h⟩) := by
  induction l with
  | nil => simp at h
  | cons a rest ih =>
    by_cases hpa : p a
    · simp [List.find?_cons_of_pos _ hpa, List.findIdx_cons, hpa]
    · have hrec : rest.findIdx p < rest.length := by
        simp only [List.findIdx_cons, hpa, cond_false, List.length_cons] at h
        omega
      rw [List.find?_cons_of_neg _ (by simpa using hpa), ih hrec]
      simp [List.findIdx_cons, hpa]

/-- C3: `swapWithTrump(playerId, cardId)` succeeds exactly when the phase is
`playing` or `round_complete`, a trump card is present, the deck is non-empty,
the named card is in that player's hand (the first card with that id), the
card's suit equals the trump suit, and either the card is the Seven and the
trump rank is major (King, Knight, Jack, Ace, Three) or the card is the Two
and the trump rank is minor; in every other case the call returns `none`
(`null` in the source, which leaves `this.state` untouched). -/
theorem swapWithTrump_succeeds_iff (s : GameState) (playerId cardId : String) :
    (swapWithTrump s playerId cardId).isSome ↔
      ((s.phase = .playing ∨ s.phase = .round_complete) ∧
        ∃ trump, s.trumpCard = some trump ∧ s.deck ≠ [] ∧
        ∃ hand, lookupKey s.playerHands playerId = some hand ∧
        ∃ card, hand.find? (fun c => decide (c.id = cardId)) = some card ∧
          card.suit = trump.suit ∧
          ((card.value = .seven ∧ trump.value ∈ MAJOR) ∨
           (card.value = .two ∧ trump.value ∉ MAJOR))) := by
  unfold swapWithTrump
  by_cases hph : s.phase = .playing ∨ s.phase = .round_complete
  · rw [if_neg (by tauto)]
    cases htc : s.trumpCard with
    | none => simp [htc]
    | some trump =>
      dsimp only
      by_cases hdk : s.deck.length = 0
      · have : s.deck = [] := List.length_eq_zero.mp hdk
        simp [hdk, this, hph]
      · rw [if_neg hdk]
        have hdk' : s.deck ≠ [] := fun hnil => hdk (by simp [hnil])
        cases hh : lookupKey s.playerHands playerId with
        | none => simp [hph, hdk']
        | some hand =>
          dsimp only
          by_cases hidx : hand.findIdx (fun c => decide (c.id = cardId)) < hand.length
          · rw [dif_pos hidx]
            set card := hand.get ⟨hand.findIdx (fun c => decide (c.id = cardId)), hidx⟩ with hcard
            have hfind : hand.find? (fun c => decide (c.id = cardId)) = some card :=
              find?_eq_get_findIdx hidx
            have h72 : (.seven : CardValue) ≠ .two := by decide
            constructor
            · intro hsome
              refine ⟨hph, trump, rfl, hdk', hand, rfl, card, hfind, ?_⟩
              by_cases hsuit : card.suit = trump.suit
              · rw [if_neg (by simpa using hsuit)] at hsome
                by_cases h7 : card.value = .seven
                · by_cases hM : trump.value ∈ MAJOR
                  · exact ⟨hsuit, Or.inl ⟨h7, hM⟩⟩
                  · rw [if_pos ⟨h7, hM⟩] at hsome; simp at hsome
                · by_cases h2 : card.value = .two
                  · by_cases hM : trump.value ∈ MAJOR
                    · rw [if_neg (by tauto), if_pos ⟨h2, hM⟩] at hsome; simp at hsome
                    · exact ⟨hsuit, Or.inr ⟨h2, hM⟩⟩
                  · rw [if_neg (by tauto), if_neg (by tauto), if_pos ⟨h7, h2⟩] at hsome
                    simp at hsome
              · rw [if_pos (by simpa using hsuit)] at hsome; simp at hsome
            · rintro ⟨-, trump', htr', -, hand', hh', card', hfind', hsuit', hcases⟩
              have htrump : trump' = trump := (Option.some.inj htr').symm
              subst htrump
              have hhand : hand' = hand := (Option.some.inj hh').symm
              subst hhand
              have hcard' : card' = card := (Option.some.inj (hfind.symm.trans hfind')).symm
              subst hcard'
              rw [if_neg (by simpa using hsuit')]
              rcases hcases with ⟨h7, hM⟩ | ⟨h2, hM⟩
              · rw [if_neg (fun hx => hx.2 hM), if_neg (fun hx => h72 (h7.symm.trans hx.1)),
                  if_neg (fun hx => hx.1 h7)]
                simp
              · rw [if_neg (fun hx => h72 (hx.1.symm.trans h2)), if_neg (fun hx => hM hx.2),
                  if_neg (fun hx => hx.2 h2)]
                simp
          · rw [dif_neg hidx]
            simp only [Option.isSome_none, Bool.false_eq_true, false_iff]
            rintro ⟨-, trump', htr', -, hand', hh', card', hfind', -⟩
            have hhand : hand' = hand := (Option.some.inj hh').symm
            subst hhand
            exact hidx (findIdx_lt_length_of_find?_eq_some hfind')
  · rw [if_pos (by tauto)]
    simp only [Option.isSome_none, Bool.false_eq_true, false_iff]
    rintro ⟨h, -⟩
    exact hph h

/-- C10: a successful `swapWithTrump` makes the offered card (the one found at
index `i` in the offering player's hand) the new face-up trump card, puts the
old trump card into that hand at exactly index `i` (so the hand's size is
unchanged), and leaves the deck, every stack, the play area, every other
player's hand, the turn pointer, the round number and the phase unchanged. -/
theorem swapWithTrump_frame (s s' : GameState) (playerId cardId : String)
    (h : swapWithTrump s playerId cardId = some s') :
    ∃ trump hand, s.trumpCard = some trump ∧
      lookupKey s.playerHands playerId = some hand ∧
      ∃ (i : Nat) (hi : i < hand.length),
        i = hand.findIdx (fun c => decide (c.id = cardId)) ∧
        s'.trumpCard = some (hand.get ⟨i, hi⟩) ∧
        lookupKey s'.playerHands playerId = some (hand.set i trump) ∧
        (hand.set i trump).length = hand.length ∧
        (∀ q, q ≠ playerId → lookupKey s'.playerHands q = lookupKey s.playerHands q) ∧
        s'.deck = s.deck ∧ s'.playerStacks = s.playerStacks ∧
        s'.playedCards = s.playedCards ∧
        s'.currentTurnPlayerIndex = s.currentTurnPlayerIndex ∧
        s'.roundNumber = s.roundNumber ∧ s'.phase = s.phase ∧
        s'.roundWinnerId = s.roundWinnerId ∧ s'.trumpSuit = s.trumpSuit := by
  unfold swapWithTrump at h
  by_cases hph : s.phase ≠ .playing ∧ s.phase ≠ .round_complete
  · rw [if_pos hph] at h; cases h
  · rw [if_neg hph] at h
    cases htc : s.trumpCard with
    | none => rw [htc] at h; cases h
    | some trump =>
      rw [htc] at h
      dsimp only at h
      by_cases hdk : s.deck.length = 0
      · rw [if_pos hdk] at h; cases h
      · rw [if_neg hdk] at h
        cases hh : lookupKey s.playerHands playerId with
        | none => rw [hh] at h; cases h
        | some hand =>
          rw [hh] at h
          dsimp only at h
          by_cases hidx : hand.findIdx (fun c => decide (c.id = cardId)) < hand.length
          · rw [dif_pos hidx] at h
            set i := hand.findIdx (fun c => decide (c.id = cardId)) with hie
            by_cases hsuit : (hand.get ⟨i, hidx⟩).suit ≠ trump.suit
            · rw [if_pos hsuit] at h; cases h
            · rw [if_neg hsuit] at h
              by_cases hA : (hand.get ⟨i, hidx⟩).value = .seven ∧ ¬ (trump.value ∈ MAJOR)
              · rw [if_pos hA] at h; cases h
              · rw [if_neg hA] at h
                by_cases hB : (hand.get ⟨i, hidx⟩).value = .two ∧ trump.value ∈ MAJOR
                · rw [if_pos hB] at h; cases h
                · rw [if_neg hB] at h
                  by_cases hC : (hand.get ⟨i, hidx⟩).value ≠ .seven ∧
                      (hand.get ⟨i, hidx⟩).value ≠ .two
                  · rw [if_pos hC] at h; cases h
                  · rw [if_neg hC] at h
                    have hs' := (Option.some.inj h).symm
                    subst hs'
                    refine ⟨trump, hand, rfl, rfl, i, hidx, hie, rfl, ?_, ?_, ?_,
                      rfl, rfl, rfl, rfl, rfl, rfl, rfl, rfl⟩
                    · show lookupKey (setKey s.playerHands playerId _) playerId = _
                      rw [lookupKey_setKey]
                      simp
                    · exact List.length_set hand i trump
                    · intro q hq
                      show lookupKey (setKey s.playerHands playerId _) q = _
                      rw [lookupKey_setKey]
                      rw [if_neg (fun hx => hq hx.symm)]
          · rw [dif_neg hidx] at h; cases h

/-- Concrete state used to exercise the swap theorems: player A holds the
Seven of coins while the King of coins is the face-up trump card. -/
def swapDemoState : GameState :=
  { phase := .playing
    deck := [mkCard .cup .four]
    trumpCard := some (mkCard .coin .king)
    trumpSuit := some .coin
    playerHands := [("A", [mkCard .coin .seven]), ("B", [mkCard .sword .two])]
    playerStacks := [("A", []), ("B", [])]
    playedCards := []
    currentTurnPlayerIndex := 0
    roundNumber := 1
    roundWinnerId := none }

/-- C10 witness: the concrete swap of the Seven of coins against the King of
coins succeeds, and `swapWithTrump_frame` applies to it. -/
theorem swapWithTrump_frame_witness :
    ∃ s', swapWithTrump swapDemoState "A" "coin_7" = some s' ∧
      ∃ trump hand, swapDemoState.trumpCard = some trump ∧
        lookupKey swapDemoState.playerHands "A" = some hand ∧
        ∃ (i : Nat) (hi : i < hand.length),
          i = hand.findIdx (fun c => decide (c.id = "coin_7")) ∧
          s'.trumpCard = some (hand.get ⟨i, hi⟩) ∧
          lookupKey s'.playerHands "A" = some (hand.set i trump) ∧
          (hand.set i trump).length = hand.length ∧
          (∀ q, q ≠ "A" → lookupKey s'.playerHands q = lookupKey swapDemoState.playerHands q) ∧
          s'.deck = swapDemoState.deck ∧ s'.playerStacks = swapDemoState.playerStacks ∧
          s'.playedCards = swapDemoState.playedCards ∧
          s'.currentTurnPlayerIndex = swapDemoState.currentTurnPlayerIndex ∧
          s'.roundNumber = swapDemoState.roundNumber ∧ s'.phase = swapDemoState.phase ∧
          s'.roundWinnerId = swapDemoState.roundWinnerId ∧
          s'.trumpSuit = swapDemoState.trumpSuit := by
  refine ⟨{ swapDemoState with
      trumpCard := some (mkCard .coin .seven)
      playerHands := [("A", [mkCard .coin .king]), ("B", [mkCard .sword .two])] }, ?_, ?_⟩
  · decide
  · exact swapWithTrump_frame swapDemoState _ "A" "coin_7" (by decide)

/-! ## Mode engines -/

/-- `GameConfig` from `BaseGameLogic.ts`. -/
structure GameConfig where
  cardsPerPlayer : Nat
  minPlayers : Nat
  maxPlayers : Nat
deriving DecidableEq, Repr

/-- `OneVOneGameLogic.CONFIG`. -/
def ONE_V_ONE_CONFIG : GameConfig := ⟨3, 2, 2⟩

/-- `ThreeForAllGameLogic.CONFIG`. -/
def THREE_FOR_ALL_CONFIG : GameConfig := ⟨3, 3, 3⟩

/-- `TwoVTwoGameLogic.CONFIG`. -/
def TWO_V_TWO_CONFIG : GameConfig := ⟨3, 4, 4⟩

/-- The body of the dealing loop: pop the deck's last card into player `p`'s
hand, or do nothing when the deck is empty (`if (newDeck.length > 0)`). -/
def dealStep (acc : List Card × List (String × List Card)) (p : Player) :
    List Card × List (String × List Card) :=
  match acc.1.getLast? with
  | some card => (acc.1.dropLast, setKey acc.2 p.id (lookupD acc.2 p.id [] ++ [card]))
  | none => acc

/-- `BaseGameLogic.dealCards`: round-robin, one card per player per pass,
popping from the end of the deck, skipping the pop when the deck is empty. -/
def dealCards (players : List Player) (cardsPerPlayer : Nat) (deck : List Card) :
    List Card × List (String × List Card) :=
  let hands0 := players.map fun p => (p.id, ([] : List Card))
  (List.range cardsPerPlayer).foldl
    (fun acc _ => players.foldl dealStep acc)
    (deck, hands0)

/-- The `else if (trumpCard)` arm of the 1v1/2v2 draw loop: the trump card
becomes the final drawn card (then the loop breaks), or nothing happens. -/
def takeTrumpDraw (deck : List Card) (trump : Option Card) (hand : List Card) :
    List Card × Option Card × List Card :=
  match trump with
  | some t => (deck, none, hand ++ [t])
  | none => (deck, trump, hand)

/-- The per-player draw loop of `OneVOneGameLogic.resolveRound` and
`TwoVTwoGameLogic.resolveRound`: pop from the deck while the hand is below
`n`; once the deck is empty take the trump card (and stop); otherwise stop. -/
def drawUpTo (n : Nat) (deck : List Card) (trump : Option Card) (hand : List Card) :
    List Card × Option Card × List Card :=
  match deck.getLast? with
  | some card =>
    if _h : hand.length < n then drawUpTo n deck.dropLast trump (hand ++ [card])
    else (deck, trump, hand)
  | none =>
    if hand.length < n then takeTrumpDraw deck trump hand
    else (deck, trump, hand)
termination_by n - hand.length
decreasing_by simp [List.length_append]; omega

theorem drawUpTo_concat (n : Nat) (l : List Card) (c : Card) (trump : Option Card)
    (hand : List Card) (h : hand.length < n) :
    drawUpTo n (l ++ [c]) trump hand = drawUpTo n l trump (hand ++ [c]) := by
  conv_lhs => rw [drawUpTo]
  rw [List.getLast?_concat]
  dsimp only
  rw [dif_pos h, List.dropLast_concat]

theorem drawUpTo_nil (n : Nat) (trump : Option Card) (hand : List Card)
    (h : hand.length < n) :
    drawUpTo n [] trump hand = takeTrumpDraw [] trump hand := by
  conv_lhs => rw [drawUpTo]
  simp [h]

theorem drawUpTo_of_ge (n : Nat) (deck : List Card) (trump : Option Card)
    (hand : List Card) (h : ¬ hand.length < n) :
    drawUpTo n deck trump hand = (deck, trump, hand) := by
  conv_lhs => rw [drawUpTo]
  cases hl : deck.getLast? with
  | none => simp [h]
  | some c => simp [h]

/-- The per-player draw loop of `ThreeForAllGameLogic.resolveRound`:
`while (deck.length > 0 && hand.length < n)` pop from the end of the deck. -/
def drawFromDeck (n : Nat) (deck hand : List Card) : List Card × List Card :=
  match deck.getLast? with
  | some card =>
    if _h : hand.length < n then drawFromDeck n deck.dropLast (hand ++ [card])
    else (deck, hand)
  | none => (deck, hand)
termination_by n - hand.length
decreasing_by simp [List.length_append]; omega

theorem drawFromDeck_concat (n : Nat) (l : List Card) (c : Card) (hand : List Card)
    (h : hand.length < n) :
    drawFromDeck n (l ++ [c]) hand = drawFromDeck n l (hand ++ [c]) := by
  conv_lhs => rw [drawFromDeck]
  rw [List.getLast?_concat]
  dsimp only
  rw [dif_pos h, List.dropLast_concat]

theorem drawFromDeck_nil (n : Nat) (hand : List Card) :
    drawFromDeck n [] hand = ([], hand) := by
  rw [drawFromDeck]
  rfl

theorem drawFromDeck_of_ge (n : Nat) (deck hand : List Card) (h : ¬ hand.length < n) :
    drawFromDeck n deck hand = (deck, hand) := by
  conv_lhs => rw [drawFromDeck]
  cases hl : deck.getLast? with
  | none => simp
  | some c => simp [h]

/-- Replacement draws for a list of player ids in draw order (1v1/2v2). -/
def drawPlayers (n : Nat) (order : List String) (deck : List Card) (trump : Option Card)
    (hands : List (String × List Card)) :
    List Card × Option Card × List (String × List Card) :=
  match order with
  | [] => (deck, trump, hands)
  | pid :: rest =>
    let r := drawUpTo n deck trump (lookupD hands pid [])
    drawPlayers n rest r.1 r.2.1 (setKey hands pid r.2.2)

/-- Replacement draws for a list of player ids in draw order (3-for-all). -/
def drawPlayersNoTrump (n : Nat) (order : List String) (deck : List Card)
    (hands : List (String × List Card)) : List Card × List (String × List Card) :=
  match order with
  | [] => (deck, hands)
  | pid :: rest =>
    let r := drawFromDeck n deck (lookupD hands pid [])
    drawPlayersNoTrump n rest r.1 (setKey hands pid r.2)

/-- The draw order `players[(winnerIndex + i) % players.length].id` for
`i = 0 .. players.length - 1`. -/
def rotatedIds (players : List Player) (startIndex : Nat) : List String :=
  (List.range players.length).filterMap fun i =>
    (players.get? ((startIndex + i) % players.length)).map Player.id

/-- Per-player scores: sum of `card.score` over each stack, in stack order. -/
def stackScores (stks : List (String × List Card)) : List (String × Nat) :=
  stks.map fun kv => (kv.1, kv.2.foldl (fun total card => total + card.score) 0)

/-- `Object.keys(scores).reduce((a, b) => scores[a] > scores[b] ? a : b)`:
the running key is kept unless the candidate's score is strictly larger, so
exact ties are resolved towards the later key, never reported as a tie. -/
def reduceMaxKey (scores : List (String × Nat)) : Option String :=
  match scores.map Prod.fst with
  | [] => none
  | k :: ks =>
    some (ks.foldl (fun a b => if lookupD scores b 0 < lookupD scores a 0 then a else b) k)

/-- `BaseGameLogic.initializeGame` (used unchanged by the 3-for-all engine):
set the trump aside, discard `remaining % playerCount` cards from the end for
balancing, then deal.  The shuffled deck is an explicit input standing for
`shuffleDeck(createDeck())`. -/
def baseInitializeGame (players : List Player) (config : GameConfig)
    (shuffled : List Card) : GameState :=
  let trumpCard := shuffled.getLast?
  let afterTrump := shuffled.dropLast
  -- JS: `x % 0` is `NaN` and the removal loop does not run; hence the guard.
  let cardsToRemove := if players.length = 0 then 0 else afterTrump.length % players.length
  -- `cardsToRemove` pops from the end of the array.
  let balanced := afterTrump.take (afterTrump.length - cardsToRemove)
  let deal := dealCards players config.cardsPerPlayer balanced
  { phase := .playing
    deck := deal.1
    trumpCard := trumpCard
    playerHands := deal.2
    playerStacks := players.map fun p => (p.id, [])
    playedCards := []
    currentTurnPlayerIndex := 0
    roundNumber := 1
    roundWinnerId := none }

/-- `OneVOneGameLogic.initializeGame`: no balancing removal; also stores the
trump suit, the swap actor and the round history. -/
def initializeGame1v1 (players : List Player) (shuffled : List Card) : GameState :=
  let trumpCard := shuffled.getLast?
  let afterTrump := shuffled.dropLast
  let deal := dealCards players ONE_V_ONE_CONFIG.cardsPerPlayer afterTrump
  { phase := .playing
    deck := deal.1
    trumpCard := trumpCard
    trumpSuit := trumpCard.map Card.suit
    playerHands := deal.2
    playerStacks := players.map fun p => (p.id, [])
    playedCards := []
    currentTurnPlayerIndex := 0
    roundNumber := 1
    roundWinnerId := none }

/-- `OneVOneGameLogic.playCard`.  The random animation transform is the
explicit argument `tf`. -/
def playCard1v1 (players : List Player) (s : GameState) (playerId cardId tf : String) :
    Option GameState :=
  if s.phase ≠ .playing then none
  else match players.get? s.currentTurnPlayerIndex with
  | none => none
  | some currentTurnPlayer =>
    if currentTurnPlayer.id ≠ playerId then none
    else match lookupKey s.playerHands playerId with
    | none => none
    | some playerHand =>
      let cardIndex := playerHand.findIdx fun c => decide (c.id = cardId)
      if h : cardIndex < playerHand.length then
        let card := playerHand.get ⟨cardIndex, h⟩
        let newHand := playerHand.eraseIdx cardIndex
        let newPlayedCards := s.playedCards ++ [⟨card, playerId, tf⟩]
        let newHands := setKey s.playerHands playerId newHand
        let nextTurn := (s.currentTurnPlayerIndex + 1) % players.length
        if newPlayedCards.length = players.length then
          let winnerId := evaluateRound newPlayedCards (s.trumpSuit.getD .coin)
          some { s with
                        phase := .round_complete, playerHands := newHands,
                        playedCards := newPlayedCards, currentTurnPlayerIndex := nextTurn,
                        roundWinnerId := some winnerId }
        else
          some { s with
                        playerHands := newHands, playedCards := newPlayedCards,
                        currentTurnPlayerIndex := nextTurn }
      else none

/-- `OneVOneGameLogic.resolveRound`.  A falsy `roundWinnerId` (absent or the
empty string) leaves the state unchanged, mirroring `!this.state.roundWinnerId`. -/
def resolveRound1v1 (players : List Player) (s : GameState) : GameState :=
  if s.phase ≠ .round_complete then s
  else match s.roundWinnerId with
  | none => s
  | some winnerId =>
    if winnerId = "" then s
    else
      let historyEntry : RoundRecord := ⟨s.roundNumber, s.playedCards, winnerId⟩
      let newStacks := setKey s.playerStacks winnerId
        (lookupD s.playerStacks winnerId [] ++ s.playedCards.map PlayedCardData.card)
      let winnerIndex := players.findIdx fun p => decide (p.id = winnerId)
      let draw :=
        if 0 < s.deck.length ∨ s.trumpCard.isSome then
          drawPlayers ONE_V_ONE_CONFIG.cardsPerPlayer (rotatedIds players winnerIndex)
            s.deck s.trumpCard s.playerHands
        else (s.deck, s.trumpCard, s.playerHands)
      let newDeck := draw.1
      let trumpCard := draw.2.1
      let newHands := draw.2.2
      let allHandsEmpty := newHands.all fun kv => decide (kv.2.length = 0)
      if allHandsEmpty && decide (newDeck.length = 0) && decide (trumpCard = none) then
        let scores := stackScores newStacks
        let gameWinner := reduceMaxKey scores
        { s with
                 phase := .game_over, deck := newDeck, trumpCard := trumpCard,
                 playerHands := newHands, playerStacks := newStacks, playedCards := [],
                 finalScores := scores, gameWinnerId := gameWinner,
                 roundHistory := s.roundHistory ++ [historyEntry] }
      else
        { s with
                 phase := .playing, deck := newDeck, trumpCard := trumpCard,
                 playerHands := newHands, playerStacks := newStacks, playedCards := [],
                 currentTurnPlayerIndex := winnerIndex, roundNumber := s.roundNumber + 1,
                 roundWinnerId := none, roundHistory := s.roundHistory ++ [historyEntry] }

/-- `ThreeForAllGameLogic.playCard` (trump suit read from `trumpCard?.suit`). -/
def playCard3FA (players : List Player) (s : GameState) (playerId cardId tf : String) :
    Option GameState :=
  if s.phase ≠ .playing then none
  else match players.get? s.currentTurnPlayerIndex with
  | none => none
  | some currentTurnPlayer =>
    if currentTurnPlayer.id ≠ playerId then none
    else match lookupKey s.playerHands playerId with
    | none => none
    | some playerHand =>
      let cardIndex := playerHand.findIdx fun c => decide (c.id = cardId)
      if h : cardIndex < playerHand.length then
        let card := playerHand.get ⟨cardIndex, h⟩
        let newHand := playerHand.eraseIdx cardIndex
        let newPlayedCards := s.playedCards ++ [⟨card, playerId, tf⟩]
        let newHands := setKey s.playerHands playerId newHand
        let nextTurn := (s.currentTurnPlayerIndex + 1) % players.length
        if newPlayedCards.length = players.length then
          let winnerId := evaluateRound newPlayedCards ((s.trumpCard.map Card.suit).getD .coin)
          some { s with
                        phase := .round_complete, playerHands := newHands,
                        playedCards := newPlayedCards, currentTurnPlayerIndex := nextTurn,
                        roundWinnerId := some winnerId }
        else
          some { s with
                        playerHands := newHands, playedCards := newPlayedCards,
                        currentTurnPlayerIndex := nextTurn }
      else none

/-- `ThreeForAllGameLogic.resolveRound`: no trump-as-final-draw special case,
no round history, and the game-over test ignores the trump card. -/
def resolveRound3FA (players : List Player) (s : GameState) : GameState :=
  if s.phase ≠ .round_complete then s
  else match s.roundWinnerId with
  | none => s
  | some winnerId =>
    if winnerId = "" then s
    else
      let newStacks := setKey s.playerStacks winnerId
        (lookupD s.playerStacks winnerId [] ++ s.playedCards.map PlayedCardData.card)
      let winnerIndex := players.findIdx fun p => decide (p.id = winnerId)
      let draw :=
        if 0 < s.deck.length then
          drawPlayersNoTrump THREE_FOR_ALL_CONFIG.cardsPerPlayer
            (rotatedIds players winnerIndex) s.deck s.playerHands
        else (s.deck, s.playerHands)
      let newDeck := draw.1
      let newHands := draw.2
      let allHandsEmpty := newHands.all fun kv => decide (kv.2.length = 0)
      if allHandsEmpty && decide (newDeck.length = 0) then
        let scores := stackScores newStacks
        let gameWinner := reduceMaxKey scores
        { s with
                 phase := .game_over, deck := newDeck, playerHands := newHands,
                 playerStacks := newStacks, playedCards := [], finalScores := scores,
                 gameWinnerId := gameWinner }
      else
        { s with
                 phase := .playing, deck := newDeck, playerHands := newHands,
                 playerStacks := newStacks, playedCards := [],
                 currentTurnPlayerIndex := winnerIndex, roundNumber := s.roundNumber + 1,
                 roundWinnerId := none }

/-- `TwoVTwoGameLogic.getTeamsFromPlayers`: the externally set team bit, with
alternating seats `(idx % 2) + 1` as the fallback. -/
def getTeamsFromPlayers (players : List Player) : List (String × Nat) :=
  players.enum.map fun ip => (ip.2.id, ip.2.team.getD (ip.1 % 2 + 1))

/-- `TwoVTwoGameLogic.buildTurnOrder`: starter, first opponent, teammate,
second opponent; `filter(Boolean)` drops missing entries and empty ids. -/
def buildTurnOrder (startPlayerId : String) (teams : List (String × Nat))
    (players : List Player) : List String :=
  let startTeam := lookupKey teams startPlayerId
  let otherTeamNum : Nat := if startTeam = some 1 then 2 else 1
  let sameTeamPlayers := players.filter fun p =>
    decide (lookupKey teams p.id = startTeam ∧ p.id ≠ startPlayerId)
  let otherTeamPlayers := players.filter fun p =>
    decide (lookupKey teams p.id = some otherTeamNum)
  ([some startPlayerId, (otherTeamPlayers.get? 0).map Player.id,
      (sameTeamPlayers.get? 0).map Player.id,
      (otherTeamPlayers.get? 1).map Player.id].filterMap id).filter
    fun x => decide (x ≠ "")

/-- `TwoVTwoGameLogic.initializeGame`: no balancing removal, team map and
turn order stored, and the transient `revealing_hands` pre-phase. -/
def initializeGame2v2 (players : List Player) (shuffled : List Card) : GameState :=
  let trumpCard := shuffled.getLast?
  let afterTrump := shuffled.dropLast
  let deal := dealCards players TWO_V_TWO_CONFIG.cardsPerPlayer afterTrump
  let teams := getTeamsFromPlayers players
  let team1Players := players.filter fun p => decide (lookupKey teams p.id = some 1)
  -- `team1Players[0] || this.players[0]`
  let startPlayer := (team1Players ++ players).head?
  let turnOrder := match startPlayer with
    | some sp => buildTurnOrder sp.id teams players
    | none => []
  { phase := .revealing_hands
    deck := deal.1
    trumpCard := trumpCard
    trumpSuit := trumpCard.map Card.suit
    playerHands := deal.2
    playerStacks := players.map fun p => (p.id, [])
    playedCards := []
    currentTurnPlayerIndex := players.findIdx fun p => decide (turnOrder.head? = some p.id)
    roundNumber := 1
    roundWinnerId := none
    teams := teams
    turnOrder := turnOrder }

/-- `TwoVTwoGameLogic.playCard`: the player due to act is
`turnOrder[playedCards.length]` (an out-of-range or missing entry rejects). -/
def playCard2v2 (players : List Player) (s : GameState) (playerId cardId tf : String) :
    Option GameState :=
  if s.phase ≠ .playing then none
  else if s.turnOrder.get? s.playedCards.length ≠ some playerId then none
  else match lookupKey s.playerHands playerId with
  | none => none
  | some playerHand =>
    let cardIndex := playerHand.findIdx fun c => decide (c.id = cardId)
    if h : cardIndex < playerHand.length then
      let card := playerHand.get ⟨cardIndex, h⟩
      let newHand := playerHand.eraseIdx cardIndex
      let newPlayedCards := s.playedCards ++ [⟨card, playerId, tf⟩]
      let newHands := setKey s.playerHands playerId newHand
      if newPlayedCards.length = players.length then
        let winnerId := evaluateRound newPlayedCards (s.trumpSuit.getD .coin)
        some { s with
                      phase := .round_complete, playerHands := newHands,
                      playedCards := newPlayedCards, roundWinnerId := some winnerId }
      else
        let nextPlayerId := s.turnOrder.get? newPlayedCards.length
        let nextPlayerIndex := players.findIdx fun p => decide (nextPlayerId = some p.id)
        some { s with
                      playerHands := newHands, playedCards := newPlayedCards,
                      currentTurnPlayerIndex := nextPlayerIndex }
    else none

/-- `teamScores[k] += v` on an association list whose keys "1" and "2" are
pre-seeded; a missing key (team value outside 1 and 2) would hold `NaN` in
JavaScript and is modelled by appending the added value. -/
def bumpKey : List (String × Nat) → String → Nat → List (String × Nat)
  | [], key, v => [(key, v)]
  | (k, w) :: rest, key, v =>
    if k = key then (k, w + v) :: rest else (k, w) :: bumpKey rest key v

/-- `TwoVTwoGameLogic.resolveRound`: rebuild the turn order from the winner,
draw along it (trump as the final card), and on game over aggregate per-team
scores, reporting an exact tie as team 0 with no winning player. -/
def resolveRound2v2 (players : List Player) (s : GameState) : GameState :=
  if s.phase ≠ .round_complete then s
  else match s.roundWinnerId with
  | none => s
  | some winnerId =>
    if winnerId = "" then s
    else
      let teams := s.teams
      let historyEntry : RoundRecord := ⟨s.roundNumber, s.playedCards, winnerId⟩
      let newStacks := setKey s.playerStacks winnerId
        (lookupD s.playerStacks winnerId [] ++ s.playedCards.map PlayedCardData.card)
      let newTurnOrder := buildTurnOrder winnerId teams players
      let draw :=
        if 0 < s.deck.length ∨ s.trumpCard.isSome then
          drawPlayers TWO_V_TWO_CONFIG.cardsPerPlayer newTurnOrder
            s.deck s.trumpCard s.playerHands
        else (s.deck, s.trumpCard, s.playerHands)
      let newDeck := draw.1
      let trumpCard := draw.2.1
      let newHands := draw.2.2
      let allHandsEmpty := newHands.all fun kv => decide (kv.2.length = 0)
      if allHandsEmpty && decide (newDeck.length = 0) && decide (trumpCard = none) then
        let scores := stackScores newStacks
        let teamScores := scores.foldl
          (fun ts kv =>
            -- `const team = teams[pid] || 1`
            let team : Nat := match lookupKey teams kv.1 with
              | some t => if t = 0 then 1 else t
              | none => 1
            bumpKey ts (toString team) kv.2)
          [("1", 0), ("2", 0)]
        let ts1 := lookupD teamScores "1" 0
        let ts2 := lookupD teamScores "2" 0
        let winnerTeam : Nat := if ts1 = ts2 then 0 else if ts2 < ts1 then 1 else 2
        let winnerTeamPlayers :=
          if winnerTeam = 0 then []
          else players.filter fun p => decide (lookupKey teams p.id = some winnerTeam)
        -- `winnerTeamPlayers[0]?.id || null`
        let gameWinner := (winnerTeamPlayers.head?.map Player.id).bind
          fun i => if i = "" then none else some i
        { s with
                 phase := .game_over, deck := newDeck, trumpCard := trumpCard,
                 playerHands := newHands, playerStacks := newStacks, playedCards := [],
                 finalScores := scores, gameWinnerId := gameWinner,
                 roundHistory := s.roundHistory ++ [historyEntry],
                 teamScores := teamScores, winnerTeam := some winnerTeam,
                 turnOrder := newTurnOrder }
      else
        let winnerIndex := players.findIdx fun p => decide (p.id = winnerId)
        { s with
                 phase := .playing, deck := newDeck, trumpCard := trumpCard,
                 playerHands := newHands, playerStacks := newStacks, playedCards := [],
                 currentTurnPlayerIndex := winnerIndex, roundNumber := s.roundNumber + 1,
                 roundWinnerId := none, roundHistory := s.roundHistory ++ [historyEntry],
                 turnOrder := newTurnOrder }

/-- If no element satisfies the predicate, `findIdx` returns the length
(the model of JavaScript `findIndex` returning `-1`). -/
theorem findIdx_eq_length_of_forall {l : List α} {p : α → Bool}
    (h : ∀ a ∈ l, ¬ p a) : l.findIdx p = l.length := by
  induction l with
  | nil => rfl
  | cons a rest ih =>
    have hpa : p a = false := by
      have := h a (List.mem_cons_self _ _)
      revert this
      cases p a <;> simp
    simp only [List.findIdx_cons, hpa, cond_false, List.length_cons]
    rw [ih fun x hx => h x (List.mem_cons_of_mem _ hx)]

/-- C7: in every engine, `playCard` invoked in a phase other than `playing`,
or by a player who is not due to act, or with a card id not present in that
player's hand, returns `none` (the source's `null`, which never assigns
`this.state`, so the state is unchanged) — distinguishable from the `some`
of a successful mutation; and `resolveRound` returns the state unchanged
whenever the phase is not `round_complete` or no (truthy) round winner is
recorded. -/
theorem playCard_resolveRound_rejections :
    (∀ (players : List Player) (s : GameState) (pid cid tf : String), s.phase ≠ .playing →
        playCard1v1 players s pid cid tf = none ∧ playCard3FA players s pid cid tf = none ∧
        playCard2v2 players s pid cid tf = none)
    ∧ (∀ (players : List Player) (s : GameState) (pid cid tf : String) (p : Player),
        players.get? s.currentTurnPlayerIndex = some p → p.id ≠ pid →
        playCard1v1 players s pid cid tf = none ∧ playCard3FA players s pid cid tf = none)
    ∧ (∀ (players : List Player) (s : GameState) (pid cid tf : String),
        s.turnOrder.get? s.playedCards.length ≠ some pid →
        playCard2v2 players s pid cid tf = none)
    ∧ (∀ (players : List Player) (s : GameState) (pid cid tf : String),
        (∀ c ∈ lookupD s.playerHands pid [], c.id ≠ cid) →
        playCard1v1 players s pid cid tf = none ∧ playCard3FA players s pid cid tf = none ∧
        playCard2v2 players s pid cid tf = none)
    ∧ (∀ (players : List Player) (s : GameState),
        s.phase ≠ .round_complete ∨ s.roundWinnerId = none ∨ s.roundWinnerId = some "" →
        resolveRound1v1 players s = s ∧ resolveRound3FA players s = s ∧
        resolveRound2v2 players s = s) := by
  have hcard : ∀ (players : List Player) (s : GameState) (pid cid tf : String),
      (∀ c ∈ lookupD s.playerHands pid [], c.id ≠ cid) →
      ∀ hand, lookupKey s.playerHands pid = some hand →
      hand.findIdx (fun c => decide (c.id = cid)) = hand.length := by
    intro players s pid cid tf h hand hh
    refine findIdx_eq_length_of_forall fun c hc => ?_
    have : c.id ≠ cid := by
      have := h c
      rw [lookupD, hh] at this
      exact this (by simpa using hc)
    simpa using this
  refine ⟨?_, ?_, ?_, ?_, ?_⟩
  · intro players s pid cid tf h
    refine ⟨?_, ?_, ?_⟩ <;>
      first
        | (unfold playCard1v1; rw [if_pos h])
        | (unfold playCard3FA; rw [if_pos h])
        | (unfold playCard2v2; rw [if_pos h])
  · intro players s pid cid tf p hp hne
    constructor
    · unfold playCard1v1
      by_cases hph : s.phase ≠ .playing
      · rw [if_pos hph]
      · rw [if_neg hph, hp]
        dsimp only
        rw [if_pos hne]
    · unfold playCard3FA
      by_cases hph : s.phase ≠ .playing
      · rw [if_pos hph]
      · rw [if_neg hph, hp]
        dsimp only
        rw [if_pos hne]
  · intro players s pid cid tf hne
    unfold playCard2v2
    by_cases hph : s.phase ≠ .playing
    · rw [if_pos hph]
    · rw [if_neg hph, if_pos hne]
  · intro players s pid cid tf h
    refine ⟨?_, ?_, ?_⟩
    · unfold playCard1v1
      by_cases hph : s.phase ≠ .playing
      · rw [if_pos hph]
      · rw [if_neg hph]
        cases hp : players.get? s.currentTurnPlayerIndex with
        | none => rfl
        | some p =>
          dsimp only
          by_cases hne : p.id ≠ pid
          · rw [if_pos hne]
          · rw [if_neg hne]
            cases hh : lookupKey s.playerHands pid with
            | none => rfl
            | some hand =>
              dsimp only
              rw [dif_neg]
              rw [hcard players s pid cid tf h hand hh]
              omega
    · unfold playCard3FA
      by_cases hph : s.phase ≠ .playing
      · rw [if_pos hph]
      · rw [if_neg hph]
        cases hp : players.get? s.currentTurnPlayerIndex with
        | none => rfl
        | some p =>
          dsimp only
          by_cases hne : p.id ≠ pid
          · rw [if_pos hne]
          · rw [if_neg hne]
            cases hh : lookupKey s.playerHands pid with
            | none => rfl
            | some hand =>
              dsimp only
              rw [dif_neg]
              rw [hcard players s pid cid tf h hand hh]
              omega
    · unfold playCard2v2
      by_cases hph : s.phase ≠ .playing
      · rw [if_pos hph]
      · rw [if_neg hph]
        by_cases hne : s.turnOrder.get? s.playedCards.length ≠ some pid
        · rw [if_pos hne]
        · rw [if_neg hne]
          cases hh : lookupKey s.playerHands pid with
          | none => rfl
          | some hand =>
            dsimp only
            rw [dif_neg]
            rw [hcard players s pid cid tf h hand hh]
            omega
  · intro players s h
    refine ⟨?_, ?_, ?_⟩ <;>
      first
        | unfold resolveRound1v1
        | unfold resolveRound3FA
        | unfold resolveRound2v2
    all_goals
      rcases h with h | h | h
      · rw [if_pos h]
      · by_cases hph : s.phase ≠ .round_complete
        · rw [if_pos hph]
        · rw [if_neg hph, h]
      · by_cases hph : s.phase ≠ .round_complete
        · rw [if_pos hph]
        · rw [if_neg hph, h]
          dsimp only
          rw [if_pos rfl]

/-- C7 witness: concrete rejected commands on small states. -/
theorem playCard_resolveRound_rejections_witness :
    playCard1v1 [⟨"A", none⟩, ⟨"B", none⟩] { swapDemoState with phase := .waiting }
        "A" "coin_7" "t" = none ∧
    playCard1v1 [⟨"B", none⟩, ⟨"A", none⟩] swapDemoState "A" "coin_7" "t" = none ∧
    playCard2v2 [⟨"A", none⟩, ⟨"B", none⟩] swapDemoState "A" "coin_7" "t" = none ∧
    playCard3FA [⟨"A", none⟩, ⟨"B", none⟩] swapDemoState "A" "club_5" "t" = none ∧
    resolveRound1v1 [⟨"A", none⟩, ⟨"B", none⟩] swapDemoState = swapDemoState := by
  refine ⟨?_, ?_, ?_, ?_, ?_⟩
  · exact (playCard_resolveRound_rejections.1 _ _ _ _ _ (by decide)).1
  · exact (playCard_resolveRound_rejections.2.1 [⟨"B", none⟩, ⟨"A", none⟩] swapDemoState
      "A" "coin_7" "t" ⟨"B", none⟩ rfl (by decide)).1
  · exact playCard_resolveRound_rejections.2.2.1 _ _ _ _ _ (by decide)
  · exact (playCard_resolveRound_rejections.2.2.2.1 _ _ _ _ _ (by decide)).2.1
  · exact (playCard_resolveRound_rejections.2.2.2.2 _ _ (Or.inl (by decide))).1

/-- The 1v1/2v2 game-over test as a proposition. -/
theorem gameOverCond_iff (hands : List (String × List Card)) (dk : List Card)
    (t : Option Card) :
    ((hands.all fun kv => decide (kv.2.length = 0)) && decide (dk.length = 0) &&
        decide (t = none)) = true ↔
      dk = [] ∧ (∀ kv ∈ hands, kv.2 = []) ∧ t = none := by
  simp [List.all_eq_true, List.length_eq_zero]
  tauto

/-- The 3-for-all game-over test as a proposition. -/
theorem gameOverCondNoTrump_iff (hands : List (String × List Card)) (dk : List Card) :
    ((hands.all fun kv => decide (kv.2.length = 0)) && decide (dk.length = 0)) = true ↔
      dk = [] ∧ ∀ kv ∈ hands, kv.2 = [] := by
  simp [List.all_eq_true, List.length_eq_zero]
  tauto

/-- The rebuilt 2v2 turn order always starts with the (non-empty) winner id. -/
theorem buildTurnOrder_head (w : String) (teams : List (String × Nat))
    (players : List Player) (hw : w ≠ "") :
    (buildTurnOrder w teams players).head? = some w := by
  unfold buildTurnOrder
  simp [List.filterMap_cons, List.filter_cons, hw]

/-- C6: in every engine, `resolveRound` moves to `game_over` exactly when,
after the replacement draws (whose results are the fields of the returned
state), the deck is empty and every hand is empty — and additionally, in the
1v1 and 2v2 engines, the trump slot has been consumed.  Whenever the
transition does not fire the phase is `playing`, the round number is
incremented, and the next round is led by the round winner (and in 2v2 the
rebuilt turn order starts with the winner). -/
theorem resolveRound_gameOver_iff :
    (∀ (players : List Player) (s : GameState) (w : String),
      s.phase = .round_complete → s.roundWinnerId = some w → w ≠ "" →
      ((resolveRound1v1 players s).phase = .game_over ↔
        ((resolveRound1v1 players s).deck = [] ∧
         (∀ kv ∈ (resolveRound1v1 players s).playerHands, kv.2 = []) ∧
         (resolveRound1v1 players s).trumpCard = none)) ∧
      ((resolveRound1v1 players s).phase ≠ .game_over →
        (resolveRound1v1 players s).phase = .playing ∧
        (resolveRound1v1 players s).roundNumber = s.roundNumber + 1 ∧
        (resolveRound1v1 players s).currentTurnPlayerIndex =
          players.findIdx fun p => decide (p.id = w)))
    ∧ (∀ (players : List Player) (s : GameState) (w : String),
      s.phase = .round_complete → s.roundWinnerId = some w → w ≠ "" →
      ((resolveRound3FA players s).phase = .game_over ↔
        ((resolveRound3FA players s).deck = [] ∧
         ∀ kv ∈ (resolveRound3FA players s).playerHands, kv.2 = [])) ∧
      ((resolveRound3FA players s).phase ≠ .game_over →
        (resolveRound3FA players s).phase = .playing ∧
        (resolveRound3FA players s).roundNumber = s.roundNumber + 1 ∧
        (resolveRound3FA players s).currentTurnPlayerIndex =
          players.findIdx fun p => decide (p.id = w)))
    ∧ (∀ (players : List Player) (s : GameState) (w : String),
      s.phase = .round_complete → s.roundWinnerId = some w → w ≠ "" →
      ((resolveRound2v2 players s).phase = .game_over ↔
        ((resolveRound2v2 players s).deck = [] ∧
         (∀ kv ∈ (resolveRound2v2 players s).playerHands, kv.2 = []) ∧
         (resolveRound2v2 players s).trumpCard = none)) ∧
      ((resolveRound2v2 players s).phase ≠ .game_over →
        (resolveRound2v2 players s).phase = .playing ∧
        (resolveRound2v2 players s).roundNumber = s.roundNumber + 1 ∧
        (resolveRound2v2 players s).currentTurnPlayerIndex =
          (players.findIdx fun p => decide (p.id = w)) ∧
        (resolveRound2v2 players s).turnOrder.head? = some w)) := by
  refine ⟨?_, ?_, ?_⟩
  · intro players s w hph hw hwne
    unfold resolveRound1v1
    rw [if_neg fun hx => hx hph, hw]
    dsimp only
    rw [if_neg hwne]
    split
    all_goals split
    all_goals
      first
        | (rename_i hc
           exact ⟨⟨fun _ => (gameOverCond_iff _ _ _).mp hc, fun _ => rfl⟩,
             fun hno => absurd rfl hno⟩)
        | (rename_i hc
           exact ⟨⟨fun h => GamePhase.noConfusion h,
             fun hr => absurd ((gameOverCond_iff _ _ _).mpr hr) hc⟩,
             fun _ => ⟨rfl, rfl, rfl⟩⟩)
  · intro players s w hph hw hwne
    unfold resolveRound3FA
    rw [if_neg fun hx => hx hph, hw]
    dsimp only
    rw [if_neg hwne]
    split
    all_goals split
    all_goals
      first
        | (rename_i hc
           exact ⟨⟨fun _ => (gameOverCondNoTrump_iff _ _).mp hc, fun _ => rfl⟩,
             fun hno => absurd rfl hno⟩)
        | (rename_i hc
           exact ⟨⟨fun h => GamePhase.noConfusion h,
             fun hr => absurd ((gameOverCondNoTrump_iff _ _).mpr hr) hc⟩,
             fun _ => ⟨rfl, rfl, rfl⟩⟩)
  · intro players s w hph hw hwne
    unfold resolveRound2v2
    rw [if_neg fun hx => hx hph, hw]
    dsimp only
    rw [if_neg hwne]
    split
    all_goals split
    all_goals
      first
        | (rename_i hc
           exact ⟨⟨fun _ => (gameOverCond_iff _ _ _).mp hc, fun _ => rfl⟩,
             fun hno => absurd rfl hno⟩)
        | (rename_i hc
           exact ⟨⟨fun h => GamePhase.noConfusion h,
             fun hr => absurd ((gameOverCond_iff _ _ _).mpr hr) hc⟩,
             fun _ => ⟨rfl, rfl, rfl, buildTurnOrder_head w s.teams players hwne⟩⟩)

/-- Two players used by concrete scenarios. -/
def demoPlayers2 : List Player := [⟨"A", none⟩, ⟨"B", none⟩]

/-- Three players used by concrete scenarios. -/
def demoPlayers3 : List Player := [⟨"A", none⟩, ⟨"B", none⟩, ⟨"C", none⟩]

/-- Four players with proper alternating teams used by concrete scenarios. -/
def demoPlayers4 : List Player := [⟨"A", some 1⟩, ⟨"B", some 2⟩, ⟨"C", some 1⟩, ⟨"D", some 2⟩]

/-- A completed final 1v1 round: deck and both hands exhausted, trump already
consumed, and the two played cards worth 0 points each, so both players finish
with exactly 0 points — an exact tie. -/
def finalTiedRound1v1 : GameState :=
  { phase := .round_complete
    deck := []
    trumpCard := none
    trumpSuit := some .sword
    playerHands := [("A", []), ("B", [])]
    playerStacks := [("A", []), ("B", [])]
    playedCards := [⟨mkCard .coin .four, "A", ""⟩, ⟨mkCard .coin .five, "B", ""⟩]
    currentTurnPlayerIndex := 0
    roundNumber := 20
    roundWinnerId := some "A" }

/-- A completed final 3-for-all round with empty deck and hands. -/
def finalRound3FA : GameState :=
  { phase := .round_complete
    deck := []
    trumpCard := some (mkCard .sword .king)
    playerHands := [("A", []), ("B", []), ("C", [])]
    playerStacks := [("A", [mkCard .coin .one]), ("B", []), ("C", [])]
    playedCards := [⟨mkCard .coin .four, "A", ""⟩, ⟨mkCard .coin .five, "B", ""⟩,
      ⟨mkCard .coin .six, "C", ""⟩]
    currentTurnPlayerIndex := 0
    roundNumber := 13
    roundWinnerId := some "A" }

/-- A completed final 2v2 round with empty deck and hands and consumed trump. -/
def finalRound2v2 : GameState :=
  { phase := .round_complete
    deck := []
    trumpCard := none
    trumpSuit := some .sword
    playerHands := [("A", []), ("B", []), ("C", []), ("D", [])]
    playerStacks := [("A", [mkCard .coin .one]), ("B", []), ("C", []), ("D", [])]
    playedCards := [⟨mkCard .coin .four, "A", ""⟩, ⟨mkCard .coin .five, "B", ""⟩,
      ⟨mkCard .coin .six, "C", ""⟩, ⟨mkCard .coin .two, "D", ""⟩]
    currentTurnPlayerIndex := 0
    roundNumber := 10
    roundWinnerId := some "A"
    teams := [("A", 1), ("B", 2), ("C", 1), ("D", 2)]
    turnOrder := ["A", "B", "C", "D"] }

/-- C6 witness: the game-over characterization applied to concrete final
rounds of each engine. -/
theorem resolveRound_gameOver_iff_witness :
    (((resolveRound1v1 demoPlayers2 finalTiedRound1v1).phase = .game_over ↔
        ((resolveRound1v1 demoPlayers2 finalTiedRound1v1).deck = [] ∧
         (∀ kv ∈ (resolveRound1v1 demoPlayers2 finalTiedRound1v1).playerHands, kv.2 = []) ∧
         (resolveRound1v1 demoPlayers2 finalTiedRound1v1).trumpCard = none)) ∧
      ((resolveRound1v1 demoPlayers2 finalTiedRound1v1).phase ≠ .game_over →
        (resolveRound1v1 demoPlayers2 finalTiedRound1v1).phase = .playing ∧
        (resolveRound1v1 demoPlayers2 finalTiedRound1v1).roundNumber =
          finalTiedRound1v1.roundNumber + 1 ∧
        (resolveRound1v1 demoPlayers2 finalTiedRound1v1).currentTurnPlayerIndex =
          demoPlayers2.findIdx fun p => decide (p.id = "A"))) ∧
    (((resolveRound3FA demoPlayers3 finalRound3FA).phase = .game_over ↔
        ((resolveRound3FA demoPlayers3 finalRound3FA).deck = [] ∧
         ∀ kv ∈ (resolveRound3FA demoPlayers3 finalRound3FA).playerHands, kv.2 = [])) ∧
      ((resolveRound3FA demoPlayers3 finalRound3FA).phase ≠ .game_over →
        (resolveRound3FA demoPlayers3 finalRound3FA).phase = .playing ∧
        (resolveRound3FA demoPlayers3 finalRound3FA).roundNumber =
          finalRound3FA.roundNumber + 1 ∧
        (resolveRound3FA demoPlayers3 finalRound3FA).currentTurnPlayerIndex =
          demoPlayers3.findIdx fun p => decide (p.id = "A"))) ∧
    (((resolveRound2v2 demoPlayers4 finalRound2v2).phase = .game_over ↔
        ((resolveRound2v2 demoPlayers4 finalRound2v2).deck = [] ∧
         (∀ kv ∈ (resolveRound2v2 demoPlayers4 finalRound2v2).playerHands, kv.2 = []) ∧
         (resolveRound2v2 demoPlayers4 finalRound2v2).trumpCard = none)) ∧
      ((resolveRound2v2 demoPlayers4 finalRound2v2).phase ≠ .game_over →
        (resolveRound2v2 demoPlayers4 finalRound2v2).phase = .playing ∧
        (resolveRound2v2 demoPlayers4 finalRound2v2).roundNumber =
          finalRound2v2.roundNumber + 1 ∧
        (resolveRound2v2 demoPlayers4 finalRound2v2).currentTurnPlayerIndex =
          (demoPlayers4.findIdx fun p => decide (p.id = "A")) ∧
        (resolveRound2v2 demoPlayers4 finalRound2v2).turnOrder.head? = some "A")) :=
  ⟨resolveRound_gameOver_iff.1 demoPlayers2 finalTiedRound1v1 "A" rfl rfl (by decide),
   resolveRound_gameOver_iff.2.1 demoPlayers3 finalRound3FA "A" rfl rfl (by decide),
   resolveRound_gameOver_iff.2.2 demoPlayers4 finalRound2v2 "A" rfl rfl (by decide)⟩

/-- C4 (code bug): on the tied final 1v1 round both players finish with 0
points, yet `resolveRound` records player "B" as `gameWinnerId` — the
unconditional `reduce` maximum resolves the exact tie towards the later key
instead of reporting a tie.  (The 2v2 engine, by contrast, represents the
tie as `winnerTeam = 0` with no winning player.) -/
theorem resolveRound1v1_tie_misreported :
    (resolveRound1v1 demoPlayers2 finalTiedRound1v1).phase = .game_over ∧
    (resolveRound1v1 demoPlayers2 finalTiedRound1v1).finalScores = [("A", 0), ("B", 0)] ∧
    (resolveRound1v1 demoPlayers2 finalTiedRound1v1).gameWinnerId = some "B" := by
  refine ⟨?_, ?_, ?_⟩ <;> decide

/-! ## Conservation of the 40-card total (claim C2) -/

/-- Number of cards held by an optional trump slot. -/
def optCount (t : Option Card) : Nat := if t.isSome then 1 else 0

theorem optCount_some (c : Card) : optCount (some c) = 1 := rfl

theorem optCount_none : optCount none = 0 := rfl

/-- Freshly initialized stacks hold no cards. -/
theorem sumSizes_initStacks (players : List Player) :
    sumSizes (players.map fun p => (p.id, ([] : List Card))) = 0 := by
  induction players with
  | nil => rfl
  | cons p rest ih => simpa [sumSizes] using ih

/-- The trump-aware draw loop moves cards around without creating or
destroying any. -/
theorem drawUpTo_conserves (n : Nat) (deck : List Card) (trump : Option Card)
    (hand : List Card) :
    (drawUpTo n deck trump hand).1.length + optCount (drawUpTo n deck trump hand).2.1 +
        (drawUpTo n deck trump hand).2.2.length =
      deck.length + optCount trump + hand.length := by
  induction deck using List.reverseRecOn generalizing hand with
  | nil =>
    by_cases h : hand.length < n
    · rw [drawUpTo_nil n trump hand h]
      cases trump with
      | none => simp [takeTrumpDraw, optCount]
      | some t => simp [takeTrumpDraw, optCount]; omega
    · rw [drawUpTo_of_ge n [] trump hand h]
  | append_singleton l c ih =>
    by_cases h : hand.length < n
    · rw [drawUpTo_concat n l c trump hand h]
      have := ih (hand ++ [c])
      simp only [List.length_append, List.length_cons, List.length_nil] at this ⊢
      omega
    · rw [drawUpTo_of_ge n (l ++ [c]) trump hand h]

/-- The trumpless draw loop moves cards from the deck to the hand only. -/
theorem drawFromDeck_conserves (n : Nat) (deck hand : List Card) :
    (drawFromDeck n deck hand).1.length + (drawFromDeck n deck hand).2.length =
      deck.length + hand.length := by
  induction deck using List.reverseRecOn generalizing hand with
  | nil => rw [drawFromDeck_nil]
  | append_singleton l c ih =>
    by_cases h : hand.length < n
    · rw [drawFromDeck_concat n l c hand h]
      have := ih (hand ++ [c])
      simp only [List.length_append, List.length_cons, List.length_nil] at this ⊢
      omega
    · rw [drawFromDeck_of_ge n (l ++ [c]) hand h]

/-- Replacement draws over a list of players conserve the total card count. -/
theorem drawPlayers_conserves (n : Nat) (order : List String) (deck : List Card)
    (trump : Option Card) (hands : List (String × List Card)) :
    (drawPlayers n order deck trump hands).1.length +
        optCount (drawPlayers n order deck trump hands).2.1 +
        sumSizes (drawPlayers n order deck trump hands).2.2 =
      deck.length + optCount trump + sumSizes hands := by
  induction order generalizing deck trump hands with
  | nil => rfl
  | cons pid rest ih =>
    unfold drawPlayers
    dsimp only
    have hdraw := drawUpTo_conserves n deck trump (lookupD hands pid [])
    have hset := sumSizes_setKey hands pid (drawUpTo n deck trump (lookupD hands pid [])).2.2
    have hrec := ih (drawUpTo n deck trump (lookupD hands pid [])).1
      (drawUpTo n deck trump (lookupD hands pid [])).2.1
      (setKey hands pid (drawUpTo n deck trump (lookupD hands pid [])).2.2)
    omega

/-- Trumpless replacement draws conserve the total card count. -/
theorem drawPlayersNoTrump_conserves (n : Nat) (order : List String) (deck : List Card)
    (hands : List (String × List Card)) :
    (drawPlayersNoTrump n order deck hands).1.length +
        sumSizes (drawPlayersNoTrump n order deck hands).2 =
      deck.length + sumSizes hands := by
  induction order generalizing deck hands with
  | nil => rfl
  | cons pid rest ih =>
    unfold drawPlayersNoTrump
    dsimp only
    have hdraw := drawFromDeck_conserves n deck (lookupD hands pid [])
    have hset := sumSizes_setKey hands pid (drawFromDeck n deck (lookupD hands pid [])).2
    have hrec := ih (drawFromDeck n deck (lookupD hands pid [])).1
      (setKey hands pid (drawFromDeck n deck (lookupD hands pid [])).2)
    omega

/-- A fold whose step preserves a measure preserves it globally. -/
theorem foldl_measure {α β : Type} {f : α → β → α} {μ : α → Nat}
    (hf : ∀ a b, μ (f a b) = μ a) : ∀ (l : List β) (a : α), μ (l.foldl f a) = μ a := by
  intro l
  induction l with
  | nil => intro a; rfl
  | cons x xs ih => intro a; rw [List.foldl_cons, ih, hf]

/-- Dealing moves cards from the deck into hands one for one. -/
theorem dealCards_conserves (players : List Player) (cardsPerPlayer : Nat)
    (deck : List Card) :
    (dealCards players cardsPerPlayer deck).1.length +
        sumSizes (dealCards players cardsPerPlayer deck).2 = deck.length := by
  unfold dealCards
  have hzero : sumSizes (players.map fun p => (p.id, ([] : List Card))) = 0 := by
    induction players with
    | nil => rfl
    | cons p rest ih => simpa [sumSizes] using ih
  have hstep : ∀ (acc : List Card × List (String × List Card)) (p : Player),
      (dealStep acc p).1.length + sumSizes (dealStep acc p).2 =
        acc.1.length + sumSizes acc.2 := by
    intro acc p
    unfold dealStep
    cases hlast : acc.1.getLast? with
    | none => rfl
    | some card =>
      dsimp only
      have hne : acc.1 ≠ [] := by
        intro hnil
        rw [hnil] at hlast
        cases hlast
      have hpos : 0 < acc.1.length := List.length_pos.mpr hne
      have hset := sumSizes_setKey acc.2 p.id (lookupD acc.2 p.id [] ++ [card])
      have hdrop : acc.1.dropLast.length = acc.1.length - 1 := by
        simp [List.length_dropLast]
      simp only [List.length_append, List.length_cons, List.length_nil] at hset
      omega
  have hpass : ∀ (acc : List Card × List (String × List Card)),
      (players.foldl dealStep acc).1.length + sumSizes (players.foldl dealStep acc).2 =
        acc.1.length + sumSizes acc.2 := by
    intro acc
    exact foldl_measure (μ := fun acc => acc.1.length + sumSizes acc.2) hstep players acc
  have := foldl_measure (μ := fun acc => acc.1.length + sumSizes acc.2)
    (f := fun acc (_ : Nat) => players.foldl dealStep acc)
    (fun a _ => hpass a) (List.range cardsPerPlayer) (deck, players.map fun p => (p.id, []))
  simpa [hzero] using this

theorem totalCards_eq (s : GameState) :
    totalCards s = s.deck.length + sumSizes s.playerHands + sumSizes s.playerStacks +
      s.playedCards.length + optCount s.trumpCard := rfl

/-- A successful swap does not change the total card count. -/
theorem swapWithTrump_conserves (s s' : GameState) (pid cid : String)
    (h : swapWithTrump s pid cid = some s') : totalCards s' = totalCards s := by
  unfold swapWithTrump at h
  by_cases hph : s.phase ≠ .playing ∧ s.phase ≠ .round_complete
  · rw [if_pos hph] at h; cases h
  · rw [if_neg hph] at h
    cases htc : s.trumpCard with
    | none => rw [htc] at h; cases h
    | some trump =>
      rw [htc] at h
      dsimp only at h
      by_cases hdk : s.deck.length = 0
      · rw [if_pos hdk] at h; cases h
      · rw [if_neg hdk] at h
        cases hh : lookupKey s.playerHands pid with
        | none => rw [hh] at h; cases h
        | some hand =>
          rw [hh] at h
          dsimp only at h
          by_cases hidx : hand.findIdx (fun c => decide (c.id = cid)) < hand.length
          · rw [dif_pos hidx] at h
            set i := hand.findIdx (fun c => decide (c.id = cid)) with hie
            by_cases hsuit : (hand.get ⟨i, hidx⟩).suit ≠ trump.suit
            · rw [if_pos hsuit] at h; cases h
            · rw [if_neg hsuit] at h
              by_cases hA : (hand.get ⟨i, hidx⟩).value = .seven ∧ ¬ (trump.value ∈ MAJOR)
              · rw [if_pos hA] at h; cases h
              · rw [if_neg hA] at h
                by_cases hB : (hand.get ⟨i, hidx⟩).value = .two ∧ trump.value ∈ MAJOR
                · rw [if_pos hB] at h; cases h
                · rw [if_neg hB] at h
                  by_cases hC : (hand.get ⟨i, hidx⟩).value ≠ .seven ∧
                      (hand.get ⟨i, hidx⟩).value ≠ .two
                  · rw [if_pos hC] at h; cases h
                  · rw [if_neg hC] at h
                    have hs' := (Option.some.inj h).symm
                    subst hs'
                    have hset := sumSizes_setKey s.playerHands pid (hand.set i trump)
                    have hlen : (hand.set i trump).length = hand.length :=
                      List.length_set hand i trump
                    have hlook : lookupD s.playerHands pid [] = hand := by
                      rw [lookupD, hh]; rfl
                    simp only [totalCards_eq, optCount_some]
                    rw [hlook, hlen] at hset
                    rw [htc, optCount_some]
                    simp only [← hie]
                    omega
          · rw [dif_neg hidx] at h; cases h

/-- A successful 1v1 card play does not change the total card count. -/
theorem playCard1v1_conserves (players : List Player) (s : GameState)
    (pid cid tf : String) (s' : GameState)
    (h : playCard1v1 players s pid cid tf = some s') : totalCards s' = totalCards s := by
  unfold playCard1v1 at h
  by_cases hph : s.phase ≠ .playing
  · rw [if_pos hph] at h; cases h
  · rw [if_neg hph] at h
    cases hp : players.get? s.currentTurnPlayerIndex with
    | none => rw [hp] at h; cases h
    | some p =>
      rw [hp] at h
      dsimp only at h
      by_cases hne : p.id ≠ pid
      · rw [if_pos hne] at h; cases h
      · rw [if_neg hne] at h
        cases hh : lookupKey s.playerHands pid with
        | none => rw [hh] at h; cases h
        | some hand =>
          rw [hh] at h
          dsimp only at h
          by_cases hidx : hand.findIdx (fun c => decide (c.id = cid)) < hand.length
          · rw [dif_pos hidx] at h
            have hset := sumSizes_setKey s.playerHands pid
              (hand.eraseIdx (hand.findIdx fun c => decide (c.id = cid)))
            have hlook : lookupD s.playerHands pid [] = hand := by
              rw [lookupD, hh]; rfl
            have herase : (hand.eraseIdx (hand.findIdx fun c => decide (c.id = cid))).length =
                hand.length - 1 := List.length_eraseIdx_of_lt hidx
            rw [hlook, herase] at hset
            by_cases hcomplete : (s.playedCards ++
                [({ card := hand.get ⟨hand.findIdx fun c => decide (c.id = cid), hidx⟩,
                    playerId := pid, transform := tf } : PlayedCardData)]).length =
                players.length
            · rw [if_pos hcomplete] at h
              have hs' := (Option.some.inj h).symm
              subst hs'
              simp only [totalCards_eq, optCount]
              dsimp only
              simp only [List.length_append, List.length_cons, List.length_nil]
              omega
            · rw [if_neg hcomplete] at h
              have hs' := (Option.some.inj h).symm
              subst hs'
              simp only [totalCards_eq, optCount]
              dsimp only
              simp only [List.length_append, List.length_cons, List.length_nil]
              omega
          · rw [dif_neg hidx] at h; cases h

/-- A successful 3-for-all card play does not change the total card count. -/
theorem playCard3FA_conserves (players : List Player) (s : GameState)
    (pid cid tf : String) (s' : GameState)
    (h : playCard3FA players s pid cid tf = some s') : totalCards s' = totalCards s := by
  unfold playCard3FA at h
  by_cases hph : s.phase ≠ .playing
  · rw [if_pos hph] at h; cases h
  · rw [if_neg hph] at h
    cases hp : players.get? s.currentTurnPlayerIndex with
    | none => rw [hp] at h; cases h
    | some p =>
      rw [hp] at h
      dsimp only at h
      by_cases hne : p.id ≠ pid
      · rw [if_pos hne] at h; cases h
      · rw [if_neg hne] at h
        cases hh : lookupKey s.playerHands pid with
        | none => rw [hh] at h; cases h
        | some hand =>
          rw [hh] at h
          dsimp only at h
          by_cases hidx : hand.findIdx (fun c => decide (c.id = cid)) < hand.length
          · rw [dif_pos hidx] at h
            have hset := sumSizes_setKey s.playerHands pid
              (hand.eraseIdx (hand.findIdx fun c => decide (c.id = cid)))
            have hlook : lookupD s.playerHands pid [] = hand := by
              rw [lookupD, hh]; rfl
            have herase : (hand.eraseIdx (hand.findIdx fun c => decide (c.id = cid))).length =
                hand.length - 1 := List.length_eraseIdx_of_lt hidx
            rw [hlook, herase] at hset
            by_cases hcomplete : (s.playedCards ++
                [({ card := hand.get ⟨hand.findIdx fun c => decide (c.id = cid), hidx⟩,
                    playerId := pid, transform := tf } : PlayedCardData)]).length =
                players.length
            · rw [if_pos hcomplete] at h
              have hs' := (Option.some.inj h).symm
              subst hs'
              simp only [totalCards_eq, optCount]
              dsimp only
              simp only [List.length_append, List.length_cons, List.length_nil]
              omega
            · rw [if_neg hcomplete] at h
              have hs' := (Option.some.inj h).symm
              subst hs'
              simp only [totalCards_eq, optCount]
              dsimp only
              simp only [List.length_append, List.length_cons, List.length_nil]
              omega
          · rw [dif_neg hidx] at h; cases h

/-- A successful 2v2 card play does not change the total card count. -/
theorem playCard2v2_conserves (players : List Player) (s : GameState)
    (pid cid tf : String) (s' : GameState)
    (h : playCard2v2 players s pid cid tf = some s') : totalCards s' = totalCards s := by
  unfold playCard2v2 at h
  by_cases hph : s.phase ≠ .playing
  · rw [if_pos hph] at h; cases h
  · rw [if_neg hph] at h
    by_cases hne : s.turnOrder.get? s.playedCards.length ≠ some pid
    · rw [if_pos hne] at h; cases h
    · rw [if_neg hne] at h
      cases hh : lookupKey s.playerHands pid with
      | none => rw [hh] at h; cases h
      | some hand =>
        rw [hh] at h
        dsimp only at h
        by_cases hidx : hand.findIdx (fun c => decide (c.id = cid)) < hand.length
        · rw [dif_pos hidx] at h
          have hset := sumSizes_setKey s.playerHands pid
            (hand.eraseIdx (hand.findIdx fun c => decide (c.id = cid)))
          have hlook : lookupD s.playerHands pid [] = hand := by
            rw [lookupD, hh]; rfl
          have herase : (hand.eraseIdx (hand.findIdx fun c => decide (c.id = cid))).length =
              hand.length - 1 := List.length_eraseIdx_of_lt hidx
          rw [hlook, herase] at hset
          by_cases hcomplete : (s.playedCards ++
              [({ card := hand.get ⟨hand.findIdx fun c => decide (c.id = cid), hidx⟩,
                  playerId := pid, transform := tf } : PlayedCardData)]).length =
              players.length
          · rw [if_pos hcomplete] at h
            have hs' := (Option.some.inj h).symm
            subst hs'
            simp only [totalCards_eq, optCount]
            dsimp only
            simp only [List.length_append, List.length_cons, List.length_nil]
            omega
          · rw [if_neg hcomplete] at h
            have hs' := (Option.some.inj h).symm
            subst hs'
            simp only [totalCards_eq, optCount]
            dsimp only
            simp only [List.length_append, List.length_cons, List.length_nil]
            omega
        · rw [dif_neg hidx] at h; cases h

/-- Resolving a 1v1 round does not change the total card count. -/
theorem resolveRound1v1_conserves (players : List Player) (s : GameState) :
    totalCards (resolveRound1v1 players s) = totalCards s := by
  unfold resolveRound1v1
  by_cases hph : s.phase ≠ .round_complete
  · rw [if_pos hph]
  · rw [if_neg hph]
    cases hw : s.roundWinnerId with
    | none => rfl
    | some w =>
      dsimp only
      by_cases hwe : w = ""
      · rw [if_pos hwe]
      · rw [if_neg hwe]
        have hstacks := sumSizes_setKey s.playerStacks w
          (lookupD s.playerStacks w [] ++ s.playedCards.map PlayedCardData.card)
        simp only [List.length_append, List.length_map] at hstacks
        have hdraw := drawPlayers_conserves ONE_V_ONE_CONFIG.cardsPerPlayer
          (rotatedIds players (players.findIdx fun p => decide (p.id = w)))
          s.deck s.trumpCard s.playerHands
        simp only [optCount] at hdraw
        split
        all_goals split
        all_goals
          simp only [totalCards_eq, optCount]
          dsimp only
          simp only [List.length_nil]
          omega

/-- Resolving a 3-for-all round does not change the total card count. -/
theorem resolveRound3FA_conserves (players : List Player) (s : GameState) :
    totalCards (resolveRound3FA players s) = totalCards s := by
  unfold resolveRound3FA
  by_cases hph : s.phase ≠ .round_complete
  · rw [if_pos hph]
  · rw [if_neg hph]
    cases hw : s.roundWinnerId with
    | none => rfl
    | some w =>
      dsimp only
      by_cases hwe : w = ""
      · rw [if_pos hwe]
      · rw [if_neg hwe]
        have hstacks := sumSizes_setKey s.playerStacks w
          (lookupD s.playerStacks w [] ++ s.playedCards.map PlayedCardData.card)
        simp only [List.length_append, List.length_map] at hstacks
        have hdraw := drawPlayersNoTrump_conserves THREE_FOR_ALL_CONFIG.cardsPerPlayer
          (rotatedIds players (players.findIdx fun p => decide (p.id = w)))
          s.deck s.playerHands
        split
        all_goals split
        all_goals
          simp only [totalCards_eq, optCount]
          dsimp only
          simp only [List.length_nil]
          omega

/-- Resolving a 2v2 round does not change the total card count. -/
theorem resolveRound2v2_conserves (players : List Player) (s : GameState) :
    totalCards (resolveRound2v2 players s) = totalCards s := by
  unfold resolveRound2v2
  by_cases hph : s.phase ≠ .round_complete
  · rw [if_pos hph]
  · rw [if_neg hph]
    cases hw : s.roundWinnerId with
    | none => rfl
    | some w =>
      dsimp only
      by_cases hwe : w = ""
      · rw [if_pos hwe]
      · rw [if_neg hwe]
        have hstacks := sumSizes_setKey s.playerStacks w
          (lookupD s.playerStacks w [] ++ s.playedCards.map PlayedCardData.card)
        simp only [List.length_append, List.length_map] at hstacks
        have hdraw := drawPlayers_conserves TWO_V_TWO_CONFIG.cardsPerPlayer
          (buildTurnOrder w s.teams players) s.deck s.trumpCard s.playerHands
        simp only [optCount] at hdraw
        split
        all_goals split
        all_goals
          simp only [totalCards_eq, optCount]
          dsimp only
          simp only [List.length_nil]
          omega

/-- The 1v1 initial state distributes all 40 cards. -/
theorem initializeGame1v1_total (players : List Player) (shuffled : List Card)
    (hlen : shuffled.length = 40) :
    totalCards (initializeGame1v1 players shuffled) = 40 := by
  unfold initializeGame1v1
  have hdeal := dealCards_conserves players ONE_V_ONE_CONFIG.cardsPerPlayer
    shuffled.dropLast
  have hdrop : shuffled.dropLast.length = 39 := by
    simp [List.length_dropLast, hlen]
  have hne : shuffled ≠ [] := by
    intro hnil; rw [hnil] at hlen; cases hlen
  have htrump : shuffled.getLast?.isSome := List.getLast?_isSome.mpr hne
  have hzero := sumSizes_initStacks players
  simp only [totalCards_eq, optCount]
  dsimp only
  rw [htrump]
  simp only [if_pos]
  rw [hdrop] at hdeal
  simp only [List.length_nil, hzero]
  omega

/-- The 2v2 initial state distributes all 40 cards. -/
theorem initializeGame2v2_total (players : List Player) (shuffled : List Card)
    (hlen : shuffled.length = 40) :
    totalCards (initializeGame2v2 players shuffled) = 40 := by
  unfold initializeGame2v2
  have hdeal := dealCards_conserves players TWO_V_TWO_CONFIG.cardsPerPlayer
    shuffled.dropLast
  have hdrop : shuffled.dropLast.length = 39 := by
    simp [List.length_dropLast, hlen]
  have hne : shuffled ≠ [] := by
    intro hnil; rw [hnil] at hlen; cases hlen
  have htrump : shuffled.getLast?.isSome := List.getLast?_isSome.mpr hne
  have hzero := sumSizes_initStacks players
  simp only [totalCards_eq, optCount]
  dsimp only
  rw [htrump]
  simp only [if_pos]
  rw [hdrop] at hdeal
  simp only [List.length_nil, hzero]
  omega

/-- With 3 players the balancing removal drops `39 % 3 = 0` cards, so the
3-for-all initial state also distributes all 40 cards. -/
theorem baseInitializeGame_total3 (players : List Player) (shuffled : List Card)
    (hp : players.length = 3) (hlen : shuffled.length = 40) :
    totalCards (baseInitializeGame players THREE_FOR_ALL_CONFIG shuffled) = 40 := by
  unfold baseInitializeGame
  have hdrop : shuffled.dropLast.length = 39 := by
    simp [List.length_dropLast, hlen]
  have hne : shuffled ≠ [] := by
    intro hnil; rw [hnil] at hlen; cases hlen
  have htrump : shuffled.getLast?.isSome := List.getLast?_isSome.mpr hne
  have hzero := sumSizes_initStacks players
  have hrem : (if players.length = 0 then 0
      else shuffled.dropLast.length % players.length) = 0 := by
    rw [hp, hdrop]
    decide
  have hdeal := dealCards_conserves players THREE_FOR_ALL_CONFIG.cardsPerPlayer
    (shuffled.dropLast.take (shuffled.dropLast.length -
      if players.length = 0 then 0 else shuffled.dropLast.length % players.length))
  have htake : (shuffled.dropLast.take (shuffled.dropLast.length -
      if players.length = 0 then 0 else shuffled.dropLast.length % players.length)).length
      = 39 := by
    rw [hrem]
    simp [List.length_take, hdrop]
  simp only [totalCards_eq, optCount]
  dsimp only
  rw [htrump]
  simp only [if_pos]
  rw [htake] at hdeal
  simp only [List.length_nil, hzero]
  omega

/-- Reachable states of the 1v1 engine: any shuffle of the catalog deck,
closed under the three mutating commands. -/
inductive Reachable1v1 (players : List Player) : GameState → Prop
  | init (d : List Card) (hd : d.Perm createDeck) :
      Reachable1v1 players (initializeGame1v1 players d)
  | play (s s' : GameState) (pid cid tf : String) (hs : Reachable1v1 players s)
      (hp : playCard1v1 players s pid cid tf = some s') : Reachable1v1 players s'
  | resolve (s : GameState) (hs : Reachable1v1 players s) :
      Reachable1v1 players (resolveRound1v1 players s)
  | swap (s s' : GameState) (pid cid : String) (hs : Reachable1v1 players s)
      (hp : swapWithTrump s pid cid = some s') : Reachable1v1 players s'

/-- Reachable states of the 3-for-all engine. -/
inductive Reachable3FA (players : List Player) : GameState → Prop
  | init (d : List Card) (hd : d.Perm createDeck) :
      Reachable3FA players (baseInitializeGame players THREE_FOR_ALL_CONFIG d)
  | play (s s' : GameState) (pid cid tf : String) (hs : Reachable3FA players s)
      (hp : playCard3FA players s pid cid tf = some s') : Reachable3FA players s'
  | resolve (s : GameState) (hs : Reachable3FA players s) :
      Reachable3FA players (resolveRound3FA players s)
  | swap (s s' : GameState) (pid cid : String) (hs : Reachable3FA players s)
      (hp : swapWithTrump s pid cid = some s') : Reachable3FA players s'

/-- Reachable states of the 2v2 engine. -/
inductive Reachable2v2 (players : List Player) : GameState → Prop
  | init (d : List Card) (hd : d.Perm createDeck) :
      Reachable2v2 players (initializeGame2v2 players d)
  | play (s s' : GameState) (pid cid tf : String) (hs : Reachable2v2 players s)
      (hp : playCard2v2 players s pid cid tf = some s') : Reachable2v2 players s'
  | resolve (s : GameState) (hs : Reachable2v2 players s) :
      Reachable2v2 players (resolveRound2v2 players s)
  | swap (s s' : GameState) (pid cid : String) (hs : Reachable2v2 players s)
      (hp : swapWithTrump s pid cid = some s') : Reachable2v2 players s'

/-- The full catalog has 40 cards. -/
theorem createDeck_length : createDeck.length = 40 := by decide

/-- C2: in each concrete mode engine (1v1 with 2 players, 3-for-all with 3
players, 2v2 with 4 players), every state reachable from `initializeGame` by
`playCard`, `resolveRound` and `swapWithTrump` satisfies
`|deck| + Σ|hands| + Σ|stacks| + |play area| + (trump present ? 1 : 0) = 40`. -/
theorem reachable_totalCards_40 :
    (∀ (players : List Player) (s : GameState), players.length = 2 →
      Reachable1v1 players s → totalCards s = 40)
    ∧ (∀ (players : List Player) (s : GameState), players.length = 3 →
      Reachable3FA players s → totalCards s = 40)
    ∧ (∀ (players : List Player) (s : GameState), players.length = 4 →
      Reachable2v2 players s → totalCards s = 40) := by
  refine ⟨?_, ?_, ?_⟩
  · intro players s _ hreach
    induction hreach with
    | init d hd =>
      exact initializeGame1v1_total players d (hd.length_eq.trans createDeck_length)
    | play s s' pid cid tf hs hp ih => rw [playCard1v1_conserves players s pid cid tf s' hp, ih]
    | resolve s hs ih => rw [resolveRound1v1_conserves players s, ih]
    | swap s s' pid cid hs hp ih => rw [swapWithTrump_conserves s s' pid cid hp, ih]
  · intro players s hp3 hreach
    induction hreach with
    | init d hd =>
      exact baseInitializeGame_total3 players d hp3 (hd.length_eq.trans createDeck_length)
    | play s s' pid cid tf hs hp ih => rw [playCard3FA_conserves players s pid cid tf s' hp, ih]
    | resolve s hs ih => rw [resolveRound3FA_conserves players s, ih]
    | swap s s' pid cid hs hp ih => rw [swapWithTrump_conserves s s' pid cid hp, ih]
  · intro players s _ hreach
    induction hreach with
    | init d hd =>
      exact initializeGame2v2_total players d (hd.length_eq.trans createDeck_length)
    | play s s' pid cid tf hs hp ih => rw [playCard2v2_conserves players s pid cid tf s' hp, ih]
    | resolve s hs ih => rw [resolveRound2v2_conserves players s, ih]
    | swap s s' pid cid hs hp ih => rw [swapWithTrump_conserves s s' pid cid hp, ih]

/-- C2 witness: the invariant holds on the concrete initial states obtained
from the identity shuffle of the catalog deck. -/
theorem reachable_totalCards_40_witness :
    totalCards (initializeGame1v1 demoPlayers2 createDeck) = 40 ∧
    totalCards (baseInitializeGame demoPlayers3 THREE_FOR_ALL_CONFIG createDeck) = 40 ∧
    totalCards (initializeGame2v2 demoPlayers4 createDeck) = 40 :=
  ⟨reachable_totalCards_40.1 demoPlayers2 _ rfl (Reachable1v1.init createDeck (List.Perm.refl _)),
   reachable_totalCards_40.2.1 demoPlayers3 _ rfl
     (Reachable3FA.init createDeck (List.Perm.refl _)),
   reachable_totalCards_40.2.2 demoPlayers4 _ rfl
     (Reachable2v2.init createDeck (List.Perm.refl _))⟩

/-! ## Trump as the final draw card (claim C5) -/

/-- One draw step of a 2-card hand topping up to 3: take the deck's last card. -/
theorem drawUpTo_step (l : List Card) (c : Card) (t : Option Card) (g : List Card)
    (hg : g.length = 2) : drawUpTo 3 (l ++ [c]) t g = (l, t, g ++ [c]) := by
  rw [drawUpTo_concat 3 l c t g (by omega),
    drawUpTo_of_ge 3 l t (g ++ [c]) (by simp [hg])]

/-- A 2-card hand facing an empty deck takes the trump card itself. -/
theorem drawUpTo_trump (t : Card) (g : List Card) (hg : g.length = 2) :
    drawUpTo 3 [] (some t) g = ([], none, g ++ [t]) := by
  rw [drawUpTo_nil 3 (some t) g (by omega)]
  rfl

/-- Two players drawing from a one-card deck with the trump set aside: the
first (the round winner) takes the last deck card, the second takes the trump. -/
theorem drawPlayers_pair (x y : String) (m : List (String × List Card))
    (gx gy : List Card) (d1 t : Card) (hxy : x ≠ y)
    (hlx : gx.length = 2) (hly : gy.length = 2)
    (hmx : lookupD m x [] = gx) (hmy : lookupD m y [] = gy) :
    drawPlayers 3 [x, y] [d1] (some t) m =
      ([], none, setKey (setKey m x (gx ++ [d1])) y (gy ++ [t])) := by
  have hd1 : drawUpTo 3 [d1] (some t) gx = ([], some t, gx ++ [d1]) := by
    rw [show ([d1] : List Card) = [] ++ [d1] from rfl]
    exact drawUpTo_step [] d1 (some t) gx hlx
  have hmy' : lookupD (setKey m x (gx ++ [d1])) y [] = gy := by
    rw [lookupD, lookupKey_setKey, if_neg hxy]
    exact hmy
  have hd2 : drawUpTo 3 [] (some t) gy = ([], none, gy ++ [t]) := drawUpTo_trump t gy hly
  simp only [drawPlayers, hmx, hd1, hmy', hd2]

/-- Four players drawing from a three-card deck with the trump set aside: the
first three each take a deck card, the fourth takes the trump. -/
theorem drawPlayers_quad (w1 w2 w3 w4 : String) (m : List (String × List Card))
    (g1 g2 g3 g4 : List Card) (d1 d2 d3 t : Card)
    (h12 : w1 ≠ w2) (h13 : w1 ≠ w3) (h14 : w1 ≠ w4)
    (h23 : w2 ≠ w3) (h24 : w2 ≠ w4) (h34 : w3 ≠ w4)
    (hl1 : g1.length = 2) (hl2 : g2.length = 2) (hl3 : g3.length = 2) (hl4 : g4.length = 2)
    (hm1 : lookupD m w1 [] = g1) (hm2 : lookupD m w2 [] = g2)
    (hm3 : lookupD m w3 [] = g3) (hm4 : lookupD m w4 [] = g4) :
    drawPlayers 3 [w1, w2, w3, w4] [d1, d2, d3] (some t) m =
      ([], none,
        setKey (setKey (setKey (setKey m w1 (g1 ++ [d3])) w2 (g2 ++ [d2]))
          w3 (g3 ++ [d1])) w4 (g4 ++ [t])) := by
  have hd1 : drawUpTo 3 [d1, d2, d3] (some t) g1 = ([d1, d2], some t, g1 ++ [d3]) := by
    rw [show ([d1, d2, d3] : List Card) = [d1, d2] ++ [d3] from rfl]
    exact drawUpTo_step [d1, d2] d3 (some t) g1 hl1
  have hd2 : drawUpTo 3 [d1, d2] (some t) g2 = ([d1], some t, g2 ++ [d2]) := by
    rw [show ([d1, d2] : List Card) = [d1] ++ [d2] from rfl]
    exact drawUpTo_step [d1] d2 (some t) g2 hl2
  have hd3 : drawUpTo 3 [d1] (some t) g3 = ([], some t, g3 ++ [d1]) := by
    rw [show ([d1] : List Card) = [] ++ [d1] from rfl]
    exact drawUpTo_step [] d1 (some t) g3 hl3
  have hd4 : drawUpTo 3 [] (some t) g4 = ([], none, g4 ++ [t]) := drawUpTo_trump t g4 hl4
  have hm2' : lookupD (setKey m w1 (g1 ++ [d3])) w2 [] = g2 := by
    rw [lookupD, lookupKey_setKey, if_neg h12]
    exact hm2
  have hm3' : lookupD (setKey (setKey m w1 (g1 ++ [d3])) w2 (g2 ++ [d2])) w3 [] = g3 := by
    rw [lookupD, lookupKey_setKey, if_neg h23, lookupKey_setKey, if_neg h13]
    exact hm3
  have hm4' : lookupD (setKey (setKey (setKey m w1 (g1 ++ [d3])) w2 (g2 ++ [d2]))
      w3 (g3 ++ [d1])) w4 [] = g4 := by
    rw [lookupD, lookupKey_setKey, if_neg h34, lookupKey_setKey, if_neg h24,
      lookupKey_setKey, if_neg h14]
    exact hm4
  simp only [drawPlayers, hm1, hd1, hm2', hd2, hm3', hd3, hm4', hd4]

/-- C5: in the 1v1 and 2v2 engines, when the deck runs empty during the
replacement draws while the trump card is still set aside (1v1: one deck card
left for two 2-card hands; 2v2: three deck cards left for four 2-card hands),
the next player due to draw receives the trump card itself, so afterwards
every player holds 3 cards, the trump slot is consumed — and with the deck
empty no `swapWithTrump` call can ever succeed again. -/
theorem trump_final_draw :
    (∀ (pa pb w : String) (g1 g2 : List Card) (d1 t : Card) (s : GameState),
      pa ≠ pb → (w = pa ∨ w = pb) →
      s.phase = .round_complete → s.roundWinnerId = some w → w ≠ "" →
      s.playerHands = [(pa, g1), (pb, g2)] → g1.length = 2 → g2.length = 2 →
      s.deck = [d1] → s.trumpCard = some t →
      (∀ kv ∈ (resolveRound1v1 [⟨pa, none⟩, ⟨pb, none⟩] s).playerHands, kv.2.length = 3) ∧
      (resolveRound1v1 [⟨pa, none⟩, ⟨pb, none⟩] s).trumpCard = none ∧
      (resolveRound1v1 [⟨pa, none⟩, ⟨pb, none⟩] s).deck = [] ∧
      ∃ kv ∈ (resolveRound1v1 [⟨pa, none⟩, ⟨pb, none⟩] s).playerHands,
        kv.1 ≠ w ∧ t ∈ kv.2)
    ∧ (∀ (gA gB gC gD : List Card) (d1 d2 d3 t : Card) (s : GameState) (w : String),
      s.phase = .round_complete → s.roundWinnerId = some w →
      (w = "A" ∨ w = "B" ∨ w = "C" ∨ w = "D") →
      s.teams = [("A", 1), ("B", 2), ("C", 1), ("D", 2)] →
      s.playerHands = [("A", gA), ("B", gB), ("C", gC), ("D", gD)] →
      gA.length = 2 → gB.length = 2 → gC.length = 2 → gD.length = 2 →
      s.deck = [d1, d2, d3] → s.trumpCard = some t →
      (∀ kv ∈ (resolveRound2v2 demoPlayers4 s).playerHands, kv.2.length = 3) ∧
      (resolveRound2v2 demoPlayers4 s).trumpCard = none ∧
      (resolveRound2v2 demoPlayers4 s).deck = [] ∧
      ∃ last, (resolveRound2v2 demoPlayers4 s).turnOrder.getLast? = some last ∧
        t ∈ lookupD (resolveRound2v2 demoPlayers4 s).playerHands last [])
    ∧ (∀ (s : GameState) (pid cid : String), s.deck = [] →
      swapWithTrump s pid cid = none) := by
  refine ⟨?_, ?_, ?_⟩
  · intro pa pb w g1 g2 d1 t s hne hw hph hwid hwne hhands hl1 hl2 hdk htr
    unfold resolveRound1v1
    rw [if_neg fun hx => hx hph, hwid]
    dsimp only
    rw [if_neg hwne, hhands, hdk, htr]
    rw [if_pos (Or.inl (by simp))]
    rw [show ONE_V_ONE_CONFIG.cardsPerPlayer = 3 from rfl]
    rcases hw with hwa | hwb
    · rw [hwa]
      have hidx : (([⟨pa, none⟩, ⟨pb, none⟩] : List Player).findIdx
          fun p => decide (p.id = pa)) = 0 := by
        simp [List.findIdx_cons]
      rw [hidx]
      have hrot : rotatedIds [⟨pa, none⟩, ⟨pb, none⟩] 0 = [pa, pb] := rfl
      rw [hrot]
      rw [drawPlayers_pair pa pb [(pa, g1), (pb, g2)] g1 g2 d1 t hne hl1 hl2
        (by simp [lookupD, lookupKey]) (by simp [lookupD, lookupKey, hne])]
      have hsets : setKey (setKey [(pa, g1), (pb, g2)] pa (g1 ++ [d1])) pb (g2 ++ [t]) =
          [(pa, g1 ++ [d1]), (pb, g2 ++ [t])] := by
        simp [setKey, hne]
      rw [hsets]
      rw [if_neg (by simp [hl1])]
      refine ⟨?_, rfl, rfl, (pb, g2 ++ [t]), by simp, fun hq => hne hq.symm, by simp⟩
      intro kv hkv
      simp only [List.mem_cons, List.not_mem_nil, or_false] at hkv
      rcases hkv with rfl | rfl
      · simp [hl1]
      · simp [hl2]
    · rw [hwb]
      have hidx : (([⟨pa, none⟩, ⟨pb, none⟩] : List Player).findIdx
          fun p => decide (p.id = pb)) = 1 := by
        simp [List.findIdx_cons, hne]
      rw [hidx]
      have hrot : rotatedIds [⟨pa, none⟩, ⟨pb, none⟩] 1 = [pb, pa] := by
        simp [rotatedIds, List.range_succ]
      rw [hrot]
      rw [drawPlayers_pair pb pa [(pa, g1), (pb, g2)] g2 g1 d1 t
        (fun hq => hne hq.symm) hl2 hl1
        (by simp [lookupD, lookupKey, hne]) (by simp [lookupD, lookupKey])]
      have hsets : setKey (setKey [(pa, g1), (pb, g2)] pb (g2 ++ [d1])) pa (g1 ++ [t]) =
          [(pa, g1 ++ [t]), (pb, g2 ++ [d1])] := by
        simp [setKey, hne]
      rw [hsets]
      rw [if_neg (by simp [hl1])]
      refine ⟨?_, rfl, rfl, (pa, g1 ++ [t]), by simp, hne, by simp⟩
      intro kv hkv
      simp only [List.mem_cons, List.not_mem_nil, or_false] at hkv
      rcases hkv with rfl | rfl
      · simp [hl1]
      · simp [hl2]
  · intro gA gB gC gD d1 d2 d3 t s w hph hwid hw hteams hhands hlA hlB hlC hlD hdk htr
    rcases hw with rfl | rfl | rfl | rfl
    all_goals
      unfold resolveRound2v2
      rw [if_neg fun hx => hx hph, hwid]
      dsimp only
      rw [if_neg (by decide), hteams, hhands, hdk, htr]
      rw [if_pos (Or.inl (by simp))]
      rw [show TWO_V_TWO_CONFIG.cardsPerPlayer = 3 from rfl]
    · rw [show buildTurnOrder "A" [("A", 1), ("B", 2), ("C", 1), ("D", 2)] demoPlayers4 =
          ["A", "B", "C", "D"] by decide]
      rw [drawPlayers_quad "A" "B" "C" "D" [("A", gA), ("B", gB), ("C", gC), ("D", gD)]
        gA gB gC gD d1 d2 d3 t (by decide) (by decide) (by decide) (by decide) (by decide)
        (by decide) hlA hlB hlC hlD (by simp [lookupD, lookupKey])
        (by simp [lookupD, lookupKey]) (by simp [lookupD, lookupKey])
        (by simp [lookupD, lookupKey])]
      rw [show setKey (setKey (setKey (setKey [("A", gA), ("B", gB), ("C", gC), ("D", gD)]
          "A" (gA ++ [d3])) "B" (gB ++ [d2])) "C" (gC ++ [d1])) "D" (gD ++ [t]) =
          [("A", gA ++ [d3]), ("B", gB ++ [d2]), ("C", gC ++ [d1]), ("D", gD ++ [t])]
          by simp [setKey]]
      rw [if_neg (by simp [hlA])]
      refine ⟨?_, rfl, rfl, "D", rfl, by simp [lookupD, lookupKey]⟩
      intro kv hkv
      simp only [List.mem_cons, List.not_mem_nil, or_false] at hkv
      rcases hkv with rfl | rfl | rfl | rfl
      · simp [hlA]
      · simp [hlB]
      · simp [hlC]
      · simp [hlD]
    · rw [show buildTurnOrder "B" [("A", 1), ("B", 2), ("C", 1), ("D", 2)] demoPlayers4 =
          ["B", "A", "D", "C"] by decide]
      rw [drawPlayers_quad "B" "A" "D" "C" [("A", gA), ("B", gB), ("C", gC), ("D", gD)]
        gB gA gD gC d1 d2 d3 t (by decide) (by decide) (by decide) (by decide) (by decide)
        (by decide) hlB hlA hlD hlC (by simp [lookupD, lookupKey])
        (by simp [lookupD, lookupKey]) (by simp [lookupD, lookupKey])
        (by simp [lookupD, lookupKey])]
      rw [show setKey (setKey (setKey (setKey [("A", gA), ("B", gB), ("C", gC), ("D", gD)]
          "B" (gB ++ [d3])) "A" (gA ++ [d2])) "D" (gD ++ [d1])) "C" (gC ++ [t]) =
          [("A", gA ++ [d2]), ("B", gB ++ [d3]), ("C", gC ++ [t]), ("D", gD ++ [d1])]
          by simp [setKey]]
      rw [if_neg (by simp [hlA])]
      refine ⟨?_, rfl, rfl, "C", rfl, by simp [lookupD, lookupKey]⟩
      intro kv hkv
      simp only [List.mem_cons, List.not_mem_nil, or_false] at hkv
      rcases hkv with rfl | rfl | rfl | rfl
      · simp [hlA]
      · simp [hlB]
      · simp [hlC]
      · simp [hlD]
    · rw [show buildTurnOrder "C" [("A", 1), ("B", 2), ("C", 1), ("D", 2)] demoPlayers4 =
          ["C", "B", "A", "D"] by decide]
      rw [drawPlayers_quad "C" "B" "A" "D" [("A", gA), ("B", gB), ("C", gC), ("D", gD)]
        gC gB gA gD d1 d2 d3 t (by decide) (by decide) (by decide) (by decide) (by decide)
        (by decide) hlC hlB hlA hlD (by simp [lookupD, lookupKey])
        (by simp [lookupD, lookupKey]) (by simp [lookupD, lookupKey])
        (by simp [lookupD, lookupKey])]
      rw [show setKey (setKey (setKey (setKey [("A", gA), ("B", gB), ("C", gC), ("D", gD)]
          "C" (gC ++ [d3])) "B" (gB ++ [d2])) "A" (gA ++ [d1])) "D" (gD ++ [t]) =
          [("A", gA ++ [d1]), ("B", gB ++ [d2]), ("C", gC ++ [d3]), ("D", gD ++ [t])]
          by simp [setKey]]
      rw [if_neg (by simp [hlA])]
      refine ⟨?_, rfl, rfl, "D", rfl, by simp [lookupD, lookupKey]⟩
      intro kv hkv
      simp only [List.mem_cons, List.not_mem_nil, or_false] at hkv
      rcases hkv with rfl | rfl | rfl | rfl
      · simp [hlA]
      · simp [hlB]
      · simp [hlC]
      · simp [hlD]
    · rw [show buildTurnOrder "D" [("A", 1), ("B", 2), ("C", 1), ("D", 2)] demoPlayers4 =
          ["D", "A", "B", "C"] by decide]
      rw [drawPlayers_quad "D" "A" "B" "C" [("A", gA), ("B", gB), ("C", gC), ("D", gD)]
        gD gA gB gC d1 d2 d3 t (by decide) (by decide) (by decide) (by decide) (by decide)
        (by decide) hlD hlA hlB hlC (by simp [lookupD, lookupKey])
        (by simp [lookupD, lookupKey]) (by simp [lookupD, lookupKey])
        (by simp [lookupD, lookupKey])]
      rw [show setKey (setKey (setKey (setKey [("A", gA), ("B", gB), ("C", gC), ("D", gD)]
          "D" (gD ++ [d3])) "A" (gA ++ [d2])) "B" (gB ++ [d1])) "C" (gC ++ [t]) =
          [("A", gA ++ [d2]), ("B", gB ++ [d1]), ("C", gC ++ [t]), ("D", gD ++ [d3])]
          by simp [setKey]]
      rw [if_neg (by simp [hlA])]
      refine ⟨?_, rfl, rfl, "C", rfl, by simp [lookupD, lookupKey]⟩
      intro kv hkv
      simp only [List.mem_cons, List.not_mem_nil, or_false] at hkv
      rcases hkv with rfl | rfl | rfl | rfl
      · simp [hlA]
      · simp [hlB]
      · simp [hlC]
      · simp [hlD]
  · intro s pid cid hdeck
    unfold swapWithTrump
    by_cases hph : s.phase ≠ .playing ∧ s.phase ≠ .round_complete
    · rw [if_pos hph]
    · rw [if_neg hph]
      cases htc : s.trumpCard with
      | none => rfl
      | some trump =>
        dsimp only
        rw [if_pos (by simp [hdeck])]

/-- A 1v1 round-complete state with one card left in the deck and the trump
still set aside. -/
def lastDeckCard1v1 : GameState :=
  { phase := .round_complete
    deck := [mkCard .coin .three]
    trumpCard := some (mkCard .sword .king)
    trumpSuit := some .sword
    playerHands := [("A", [mkCard .club .one, mkCard .club .two]),
      ("B", [mkCard .cup .one, mkCard .cup .two])]
    playerStacks := [("A", []), ("B", [])]
    playedCards := []
    currentTurnPlayerIndex := 0
    roundNumber := 17
    roundWinnerId := some "A" }

/-- A 2v2 round-complete state with three cards left in the deck and the
trump still set aside. -/
def lastDeckCards2v2 : GameState :=
  { phase := .round_complete
    deck := [mkCard .coin .three, mkCard .coin .four, mkCard .coin .five]
    trumpCard := some (mkCard .sword .king)
    trumpSuit := some .sword
    playerHands := [("A", [mkCard .club .one, mkCard .club .two]),
      ("B", [mkCard .cup .one, mkCard .cup .two]),
      ("C", [mkCard .club .three, mkCard .club .four]),
      ("D", [mkCard .cup .three, mkCard .cup .four])]
    playerStacks := [("A", []), ("B", []), ("C", []), ("D", [])]
    playedCards := []
    currentTurnPlayerIndex := 0
    roundNumber := 7
    roundWinnerId := some "A"
    teams := [("A", 1), ("B", 2), ("C", 1), ("D", 2)]
    turnOrder := ["A", "B", "C", "D"] }

/-- C5 witness: the theorem applied to concrete final-deck rounds of the 1v1
and 2v2 engines, and to a concrete empty-deck swap attempt. -/
theorem trump_final_draw_witness :
    ((∀ kv ∈ (resolveRound1v1 [⟨"A", none⟩, ⟨"B", none⟩] lastDeckCard1v1).playerHands,
        kv.2.length = 3) ∧
      (resolveRound1v1 [⟨"A", none⟩, ⟨"B", none⟩] lastDeckCard1v1).trumpCard = none ∧
      (resolveRound1v1 [⟨"A", none⟩, ⟨"B", none⟩] lastDeckCard1v1).deck = [] ∧
      ∃ kv ∈ (resolveRound1v1 [⟨"A", none⟩, ⟨"B", none⟩] lastDeckCard1v1).playerHands,
        kv.1 ≠ "A" ∧ mkCard .sword .king ∈ kv.2) ∧
    ((∀ kv ∈ (resolveRound2v2 demoPlayers4 lastDeckCards2v2).playerHands,
        kv.2.length = 3) ∧
      (resolveRound2v2 demoPlayers4 lastDeckCards2v2).trumpCard = none ∧
      (resolveRound2v2 demoPlayers4 lastDeckCards2v2).deck = [] ∧
      ∃ last, (resolveRound2v2 demoPlayers4 lastDeckCards2v2).turnOrder.getLast? = some last ∧
        mkCard .sword .king ∈ lookupD (resolveRound2v2 demoPlayers4 lastDeckCards2v2).playerHands
          last []) ∧
    swapWithTrump { swapDemoState with deck := [] } "A" "coin_7" = none :=
  ⟨trump_final_draw.1 "A" "B" "A" [mkCard .club .one, mkCard .club .two]
      [mkCard .cup .one, mkCard .cup .two] (mkCard .coin .three) (mkCard .sword .king)
      lastDeckCard1v1 (by decide) (Or.inl rfl) rfl rfl (by decide) rfl rfl rfl rfl rfl,
   trump_final_draw.2.1 [mkCard .club .one, mkCard .club .two]
      [mkCard .cup .one, mkCard .cup .two] [mkCard .club .three, mkCard .club .four]
      [mkCard .cup .three, mkCard .cup .four] (mkCard .coin .three) (mkCard .coin .four)
      (mkCard .coin .five) (mkCard .sword .king) lastDeckCards2v2 "A" rfl rfl
      (Or.inl rfl) rfl rfl rfl rfl rfl rfl rfl rfl,
   trump_final_draw.2.2 { swapDemoState with deck := [] } "A" "coin_7" rfl⟩

/-! ## Deal sizes (claims C8 and C9) -/

theorem lookupD_setKey (m : List (String × α)) (k k' : String) (v d : α) :
    lookupD (setKey m k v) k' d = if k = k' then v else lookupD m k' d := by
  rw [lookupD, lookupKey_setKey]
  by_cases h : k = k' <;> simp [h, lookupD]

/-- A fresh hands object maps every key to the empty hand. -/
theorem lookupD_initHands (players : List Player) (k : String) :
    lookupD (players.map fun q => (q.id, ([] : List Card))) k [] = [] := by
  induction players with
  | nil => rfl
  | cons q rest ih =>
    by_cases hq : q.id = k
    · simp [lookupD, lookupKey, hq]
    · simp only [List.map_cons, lookupD, lookupKey]
      rw [if_neg hq]
      exact ih

/-- One dealing pass over players with pairwise distinct ids and a deck large
enough: the deck shrinks by the player count and every listed player's hand
grows by one card. -/
theorem dealPass_lengths (players : List Player)
    (hnodup : (players.map Player.id).Nodup) :
    ∀ (dk : List Card) (hs : List (String × List Card)),
    players.length ≤ dk.length →
    (players.foldl dealStep (dk, hs)).1.length = dk.length - players.length ∧
    ∀ k, (lookupD (players.foldl dealStep (dk, hs)).2 k []).length =
      (lookupD hs k []).length + (if k ∈ players.map Player.id then 1 else 0) := by
  induction players with
  | nil => intro dk hs _; simp
  | cons p rest ih =>
    intro dk hs hge
    simp only [List.length_cons] at hge
    have hdkne : dk ≠ [] := by
      intro hnil; rw [hnil] at hge; simp at hge
    obtain ⟨c, hc⟩ := Option.isSome_iff_exists.mp (List.getLast?_isSome.mpr hdkne)
    have hstep : dealStep (dk, hs) p =
        (dk.dropLast, setKey hs p.id (lookupD hs p.id [] ++ [c])) := by
      unfold dealStep
      rw [hc]
    have hdrop : dk.dropLast.length = dk.length - 1 := by
      simp [List.length_dropLast]
    simp only [List.map_cons, List.nodup_cons] at hnodup
    have hrec := ih hnodup.2 dk.dropLast (setKey hs p.id (lookupD hs p.id [] ++ [c]))
      (by omega)
    rw [List.foldl_cons, hstep]
    refine ⟨?_, ?_⟩
    · rw [hrec.1, hdrop]
      simp only [List.length_cons]
      omega
    · intro k
      rw [hrec.2 k, lookupD_setKey]
      by_cases hk : p.id = k
      · subst hk
        have hnotin : p.id ∉ rest.map Player.id := hnodup.1
        simp [hnotin, List.length_append]
      · have : (k ∈ List.map Player.id (p :: rest)) ↔ (k ∈ rest.map Player.id) := by
          simp only [List.map_cons, List.mem_cons]
          constructor
          · rintro (rfl | hm)
            · exact absurd rfl hk
            · exact hm
          · exact Or.inr
        rw [if_neg hk]
        simp only [this]

/-- Dealing `c` rounds to players with distinct ids from a deck holding at
least `c * players.length` cards: the deck shrinks by exactly that many cards
and every player ends with `c` cards in hand. -/
theorem dealCards_lengths (players : List Player)
    (hnodup : (players.map Player.id).Nodup) (c : Nat) (dk : List Card)
    (hge : c * players.length ≤ dk.length) :
    (dealCards players c dk).1.length = dk.length - c * players.length ∧
    ∀ p ∈ players, (lookupD (dealCards players c dk).2 p.id []).length = c := by
  have main : ∀ (c : Nat) (dk : List Card) (hs : List (String × List Card)),
      c * players.length ≤ dk.length →
      ((List.range c).foldl (fun acc _ => players.foldl dealStep acc) (dk, hs)).1.length =
        dk.length - c * players.length ∧
      ∀ k, (lookupD ((List.range c).foldl (fun acc _ => players.foldl dealStep acc)
          (dk, hs)).2 k []).length =
        (lookupD hs k []).length + (if k ∈ players.map Player.id then c else 0) := by
    intro c
    induction c with
    | zero => intro dk hs _; simp
    | succ n ihn =>
      intro dk hs hge
      have hge' : n * players.length ≤ dk.length := by
        have hsm : (n + 1) * players.length = n * players.length + players.length := by
          ring
        omega
      have hrec := ihn dk hs hge'
      rw [List.range_succ, List.foldl_append, List.foldl_cons, List.foldl_nil]
      set mid := (List.range n).foldl (fun acc _ => players.foldl dealStep acc) (dk, hs)
        with hmid
      have hmidlen : players.length ≤ mid.1.length := by
        rw [hrec.1]
        have hsm : (n + 1) * players.length = n * players.length + players.length := by
          ring
        omega
      have hpass := dealPass_lengths players hnodup mid.1 mid.2 hmidlen
      refine ⟨?_, ?_⟩
      · have : (players.foldl dealStep (mid.1, mid.2)).1.length =
            mid.1.length - players.length := hpass.1
        simp only [Prod.mk.eta] at this
        rw [this, hrec.1]
        have hsm : (n + 1) * players.length = n * players.length + players.length := by
          ring
        omega
      · intro k
        have := hpass.2 k
        simp only [Prod.mk.eta] at this
        rw [this, hrec.2 k]
        by_cases hk : k ∈ players.map Player.id
        · simp [hk]
          omega
        · simp [hk]
  have hm := main c dk (players.map fun p => (p.id, [])) hge
  refine ⟨hm.1, ?_⟩
  intro p hp
  have hk : p.id ∈ players.map Player.id := List.mem_map_of_mem Player.id hp
  have h2 := hm.2 p.id
  simp only [lookupD_initHands, List.length_nil, if_pos hk, Nat.zero_add] at h2
  exact h2
/-- Dealing 3 cards to two players pops six cards off the end of the deck,
round-robin: first player gets the 1st, 3rd and 5th pops, second player the
2nd, 4th and 6th. -/
theorem dealCards_two (p1 p2 : Player) (dk : List Card) (a1 a2 a3 a4 a5 a6 : Card)
    (hne : p1.id ≠ p2.id) :
    dealCards [p1, p2] 3 (dk ++ [a6, a5, a4, a3, a2, a1]) =
      (dk, [(p1.id, [a1, a3, a5]), (p2.id, [a2, a4, a6])]) := by
  have g1 : (dk ++ [a6, a5, a4, a3, a2, a1]).getLast? = some a1 := by
    rw [show dk ++ [a6, a5, a4, a3, a2, a1] = (dk ++ [a6, a5, a4, a3, a2]) ++ [a1] by simp]
    exact List.getLast?_concat _
  have d1 : (dk ++ [a6, a5, a4, a3, a2, a1]).dropLast = dk ++ [a6, a5, a4, a3, a2] := by
    rw [show dk ++ [a6, a5, a4, a3, a2, a1] = (dk ++ [a6, a5, a4, a3, a2]) ++ [a1] by simp]
    exact List.dropLast_concat
  have g2 : (dk ++ [a6, a5, a4, a3, a2]).getLast? = some a2 := by
    rw [show dk ++ [a6, a5, a4, a3, a2] = (dk ++ [a6, a5, a4, a3]) ++ [a2] by simp]
    exact List.getLast?_concat _
  have d2 : (dk ++ [a6, a5, a4, a3, a2]).dropLast = dk ++ [a6, a5, a4, a3] := by
    rw [show dk ++ [a6, a5, a4, a3, a2] = (dk ++ [a6, a5, a4, a3]) ++ [a2] by simp]
    exact List.dropLast_concat
  have g3 : (dk ++ [a6, a5, a4, a3]).getLast? = some a3 := by
    rw [show dk ++ [a6, a5, a4, a3] = (dk ++ [a6, a5, a4]) ++ [a3] by simp]
    exact List.getLast?_concat _
  have d3 : (dk ++ [a6, a5, a4, a3]).dropLast = dk ++ [a6, a5, a4] := by
    rw [show dk ++ [a6, a5, a4, a3] = (dk ++ [a6, a5, a4]) ++ [a3] by simp]
    exact List.dropLast_concat
  have g4 : (dk ++ [a6, a5, a4]).getLast? = some a4 := by
    rw [show dk ++ [a6, a5, a4] = (dk ++ [a6, a5]) ++ [a4] by simp]
    exact List.getLast?_concat _
  have d4 : (dk ++ [a6, a5, a4]).dropLast = dk ++ [a6, a5] := by
    rw [show dk ++ [a6, a5, a4] = (dk ++ [a6, a5]) ++ [a4] by simp]
    exact List.dropLast_concat
  have g5 : (dk ++ [a6, a5]).getLast? = some a5 := by
    rw [show dk ++ [a6, a5] = (dk ++ [a6]) ++ [a5] by simp]
    exact List.getLast?_concat _
  have d5 : (dk ++ [a6, a5]).dropLast = dk ++ [a6] := by
    rw [show dk ++ [a6, a5] = (dk ++ [a6]) ++ [a5] by simp]
    exact List.dropLast_concat
  have g6 : (dk ++ [a6]).getLast? = some a6 := List.getLast?_concat _
  have d6 : (dk ++ [a6]).dropLast = dk := List.dropLast_concat
  unfold dealCards
  rw [show List.range 3 = [0, 1, 2] from rfl]
  simp only [List.foldl_cons, List.foldl_nil, dealStep, g1, d1, g2, d2, g3, d3,
    g4, d4, g5, d5, g6, d6]
  simp [setKey, lookupD, lookupKey, hne]

/-- C8: for 2 players, `initializeGame` of the 1v1 engine applies no
balancing removal: the shuffled 40-card deck decomposes as 33 remaining deck
cards followed by the six cards dealt round-robin one at a time from the end
(first player gets pops 1, 3, 5; second player pops 2, 4, 6) and finally the
trump card, which is set aside face up. -/
theorem initializeGame1v1_deal (p1 p2 : String) (d rest : List Card)
    (c1 c2 c3 c4 c5 c6 t : Card) (hne : p1 ≠ p2) (hperm : d.Perm createDeck)
    (hdecomp : d = rest ++ [c6, c5, c4, c3, c2, c1, t]) :
    (initializeGame1v1 [⟨p1, none⟩, ⟨p2, none⟩] d).deck = rest ∧
    rest.length = 33 ∧
    (initializeGame1v1 [⟨p1, none⟩, ⟨p2, none⟩] d).trumpCard = some t ∧
    (initializeGame1v1 [⟨p1, none⟩, ⟨p2, none⟩] d).trumpSuit = some t.suit ∧
    lookupKey (initializeGame1v1 [⟨p1, none⟩, ⟨p2, none⟩] d).playerHands p1 =
      some [c1, c3, c5] ∧
    lookupKey (initializeGame1v1 [⟨p1, none⟩, ⟨p2, none⟩] d).playerHands p2 =
      some [c2, c4, c6] ∧
    (initializeGame1v1 [⟨p1, none⟩, ⟨p2, none⟩] d).playerStacks = [(p1, []), (p2, [])] ∧
    (initializeGame1v1 [⟨p1, none⟩, ⟨p2, none⟩] d).phase = .playing := by
  subst hdecomp
  have hlen : (rest ++ [c6, c5, c4, c3, c2, c1, t]).length = 40 :=
    hperm.length_eq.trans createDeck_length
  have hrest : rest.length = 33 := by
    simp only [List.length_append] at hlen
    simp at hlen
    omega
  have hglast : (rest ++ [c6, c5, c4, c3, c2, c1, t]).getLast? = some t := by
    rw [show rest ++ [c6, c5, c4, c3, c2, c1, t] =
      (rest ++ [c6, c5, c4, c3, c2, c1]) ++ [t] by simp]
    exact List.getLast?_concat _
  have hdlast : (rest ++ [c6, c5, c4, c3, c2, c1, t]).dropLast =
      rest ++ [c6, c5, c4, c3, c2, c1] := by
    rw [show rest ++ [c6, c5, c4, c3, c2, c1, t] =
      (rest ++ [c6, c5, c4, c3, c2, c1]) ++ [t] by simp]
    exact List.dropLast_concat
  have hdeal := dealCards_two ⟨p1, none⟩ ⟨p2, none⟩ rest c1 c2 c3 c4 c5 c6 hne
  unfold initializeGame1v1
  rw [show ONE_V_ONE_CONFIG.cardsPerPlayer = 3 from rfl, hglast, hdlast]
  dsimp only
  rw [hdeal]
  refine ⟨rfl, hrest, rfl, rfl, ?_, ?_, rfl, rfl⟩
  · simp [lookupKey]
  · simp [lookupKey, hne]

/-- C8 witness: the identity shuffle of the catalog deck dealt to players
"A" and "B"; the last seven catalog cards are the sword 4..7, Jack, Knight
and King. -/
theorem initializeGame1v1_deal_witness :
    (initializeGame1v1 [⟨"A", none⟩, ⟨"B", none⟩] createDeck).deck = createDeck.take 33 ∧
    (createDeck.take 33).length = 33 ∧
    (initializeGame1v1 [⟨"A", none⟩, ⟨"B", none⟩] createDeck).trumpCard =
      some (mkCard .sword .king) ∧
    (initializeGame1v1 [⟨"A", none⟩, ⟨"B", none⟩] createDeck).trumpSuit =
      some (mkCard .sword .king).suit ∧
    lookupKey (initializeGame1v1 [⟨"A", none⟩, ⟨"B", none⟩] createDeck).playerHands "A" =
      some [mkCard .sword .knight, mkCard .sword .seven, mkCard .sword .five] ∧
    lookupKey (initializeGame1v1 [⟨"A", none⟩, ⟨"B", none⟩] createDeck).playerHands "B" =
      some [mkCard .sword .jack, mkCard .sword .six, mkCard .sword .four] ∧
    (initializeGame1v1 [⟨"A", none⟩, ⟨"B", none⟩] createDeck).playerStacks =
      [("A", []), ("B", [])] ∧
    (initializeGame1v1 [⟨"A", none⟩, ⟨"B", none⟩] createDeck).phase = .playing :=
  initializeGame1v1_deal "A" "B" createDeck (createDeck.take 33)
    (mkCard .sword .knight) (mkCard .sword .jack) (mkCard .sword .seven)
    (mkCard .sword .six) (mkCard .sword .five) (mkCard .sword .four)
    (mkCard .sword .king) (by decide) (List.Perm.refl _) (by decide)

/-- C9: the N-for-all initializer pops one trump card, discards
`39 % N` cards for balancing (equivalently `(40 - 1 - 3*N) mod N`, computed
over the integers), then deals 3 cards to each of the N distinct players, so
the resulting deck holds `39 - 39 % N - 3*N` cards — a multiple of N — and
the number of permanently discarded cards, `40 - 1 - 3*N - |deck|`, equals
`39 % N`. -/
theorem baseInitializeGame_balancing (players : List Player) (cfg : GameConfig)
    (d : List Card) (hnodup : (players.map Player.id).Nodup)
    (hcfg : cfg.cardsPerPlayer = 3) (hperm : d.Perm createDeck)
    (hpos : 0 < players.length)
    (hfit : 3 * players.length + 39 % players.length ≤ 39) :
    (baseInitializeGame players cfg d).deck.length =
      39 - 39 % players.length - 3 * players.length ∧
    (baseInitializeGame players cfg d).deck.length % players.length = 0 ∧
    40 - 1 - 3 * players.length - (baseInitializeGame players cfg d).deck.length =
      39 % players.length ∧
    (40 - 1 - 3 * (players.length : Int)) % (players.length : Int) =
      (39 : Int) % (players.length : Int) ∧
    (∀ p ∈ players,
      (lookupD (baseInitializeGame players cfg d).playerHands p.id []).length = 3) ∧
    (baseInitializeGame players cfg d).trumpCard.isSome := by
  have hlen : d.length = 40 := hperm.length_eq.trans createDeck_length
  have hdrop : d.dropLast.length = 39 := by
    simp [List.length_dropLast, hlen]
  have hne : d ≠ [] := by
    intro hnil; rw [hnil] at hlen; cases hlen
  have htrump : d.getLast?.isSome := List.getLast?_isSome.mpr hne
  have hN0 : players.length ≠ 0 := Nat.pos_iff_ne_zero.mp hpos
  have hrem : (if players.length = 0 then 0
      else d.dropLast.length % players.length) = 39 % players.length := by
    rw [if_neg hN0, hdrop]
  have htake : (d.dropLast.take (d.dropLast.length -
      if players.length = 0 then 0 else d.dropLast.length % players.length)).length =
      39 - 39 % players.length := by
    rw [hrem]
    simp only [List.length_take, hdrop]
    omega
  have hge : 3 * players.length ≤ 39 - 39 % players.length := by omega
  have hdeal := dealCards_lengths players hnodup 3
    (d.dropLast.take (d.dropLast.length -
      if players.length = 0 then 0 else d.dropLast.length % players.length))
    (by rw [htake]; exact hge)
  have hdlen : (baseInitializeGame players cfg d).deck.length =
      39 - 39 % players.length - 3 * players.length := by
    unfold baseInitializeGame
    dsimp only
    rw [hcfg, hdeal.1, htake]
  refine ⟨hdlen, ?_, ?_, ?_, ?_, ?_⟩
  · rw [hdlen]
    have hdm := Nat.div_add_mod 39 players.length
    have hq3 : 3 ≤ 39 / players.length := by
      by_contra hq
      push_neg at hq
      interval_cases h : (39 / players.length)
      all_goals nlinarith [Nat.mod_lt 39 hpos]
    obtain ⟨m, hm⟩ : ∃ m, 39 / players.length = 3 + m := ⟨39 / players.length - 3, by omega⟩
    have hNq : players.length * (39 / players.length) =
        3 * players.length + players.length * m := by
      rw [hm]; ring
    have hmain : 39 - 39 % players.length - 3 * players.length = players.length * m := by
      omega
    rw [hmain]
    exact Nat.mul_mod_right players.length m
  · rw [hdlen]
    omega
  · rw [show (40 - 1 - 3 * (players.length : Int)) =
      39 + (players.length : Int) * (-3) by ring, Int.add_mul_emod_self_left]
  · intro p hp
    have := hdeal.2 p hp
    unfold baseInitializeGame
    dsimp only
    rw [hcfg]
    exact this
  · unfold baseInitializeGame
    dsimp only
    exact htrump

/-- Five players used by the C9 balancing scenario. -/
def demoPlayers5 : List Player :=
  [⟨"A", none⟩, ⟨"B", none⟩, ⟨"C", none⟩, ⟨"D", none⟩, ⟨"E", none⟩]

/-- C9 witness: with 3 players no card is discarded (30-card deck); with 5
players exactly 4 cards are discarded (20-card deck). -/
theorem baseInitializeGame_balancing_witness :
    ((baseInitializeGame demoPlayers3 THREE_FOR_ALL_CONFIG createDeck).deck.length = 30 ∧
      (baseInitializeGame demoPlayers3 THREE_FOR_ALL_CONFIG createDeck).deck.length % 3 = 0 ∧
      40 - 1 - 3 * 3 -
        (baseInitializeGame demoPlayers3 THREE_FOR_ALL_CONFIG createDeck).deck.length = 0) ∧
    ((baseInitializeGame demoPlayers5 THREE_FOR_ALL_CONFIG createDeck).deck.length = 20 ∧
      (baseInitializeGame demoPlayers5 THREE_FOR_ALL_CONFIG createDeck).deck.length % 5 = 0 ∧
      40 - 1 - 3 * 5 -
        (baseInitializeGame demoPlayers5 THREE_FOR_ALL_CONFIG createDeck).deck.length = 4) := by
  have h3 := baseInitializeGame_balancing demoPlayers3 THREE_FOR_ALL_CONFIG createDeck
    (by decide) rfl (List.Perm.refl _) (by decide) (by decide)
  have h5 := baseInitializeGame_balancing demoPlayers5 THREE_FOR_ALL_CONFIG createDeck
    (by decide) rfl (List.Perm.refl _) (by decide) (by decide)
  exact ⟨⟨h3.1, h3.2.1, h3.2.2.1⟩, ⟨h5.1, h5.2.1, h5.2.2.1⟩⟩

end Briscola
